import Mathlib

/-!
# Verification of the BEA download client against its specification

This development gives a shallow embedding of the two components of the
repository that carry design content:

* `ApiClient.py` — the rate-limited API client (`BeaApiClient`): rolling
  one-minute window with request/byte/error budgets, a wait loop that blocks
  callers until the window rolls over, and post-hoc counter increments.
* `downloadBeaDatasets.py` — the catalog builder and the flat-file catalog
  cache (serialization via Python `str`, deserialization via `eval`,
  fiscal-quarter freshness).

Modelling conventions:

* Python `time.time()` readings are rationals (`Rat`); real time enters the
  model as a stream `times : Nat → Rat` of successive readings, one per call
  of `time.time()` in the source.
* Python values that flow through the catalog code (JSON trees, the lists
  stored in `BeaDataSet` fields) are modelled by the inductive `PyVal`
  (strings, booleans, lists, dicts with string keys — the only shapes this
  program constructs).
* Fallible Python code (exceptions: `IndexError`, `KeyError`,
  `AttributeError`, `ValueError` from `strptime`, `SyntaxError` from `eval`)
  is modelled with `Option`: `none` is an uncaught exception.
* Python `eval` applied to the cache lines is modelled as evaluation of the
  literal syntax that `str`/`repr` emit for these values (quoted strings with
  backslash escapes, `True`/`False`, `[...]` lists, `{...}` dicts).  Full
  `eval` is an interpreter; on the files this program writes it only ever
  sees such literals.
-/

/-! ## Rate-limited API client (`src/ApiClient.py`) -/

/-- The three per-minute budgets fixed at construction
(`BeaApiClient.__init__`).  `dataLimit` is already in bytes. -/
structure ClientLimits where
  requestLimit : Nat
  dataLimit : Nat
  errorLimit : Nat
deriving DecidableEq, Repr

/-- `BeaApiClient.__init__`: `dataLimitMb` is converted to bytes by
`dataLimitMb * 1024 * 1024`. -/
def mkClientLimits (requestLimit dataLimitMb errorLimit : Nat) : ClientLimits :=
  { requestLimit := requestLimit
    dataLimit := dataLimitMb * 1024 * 1024
    errorLimit := errorLimit }

/-- The mutable window state of a `BeaApiClient`: the three counters and the
window-start timestamp (`lastReset`). -/
structure ClientState where
  requestsMade : Nat
  dataReceived : Nat
  errorsMade : Nat
  lastReset : Rat
deriving DecidableEq, Repr

/-- The state right after `__init__`: all counters zero, `lastReset` the
construction-time clock reading. -/
def initClientState (t0 : Rat) : ClientState :=
  { requestsMade := 0, dataReceived := 0, errorsMade := 0, lastReset := t0 }

/-- `BeaApiClient.resetCounters`, with the `time.time()` reading passed in:
if more than 60 seconds have passed since `lastReset`, zero all three
counters and move `lastReset` to `now`; otherwise leave the state untouched. -/
def resetCounters (st : ClientState) (now : Rat) : ClientState :=
  if 60 < now - st.lastReset then
    { requestsMade := 0, dataReceived := 0, errorsMade := 0, lastReset := now }
  else
    st

/-- The `while` condition of `BeaApiClient.checkLimits`:
`requestsMade >= requestLimit or dataReceived >= dataLimit or
errorsMade >= errorLimit`. -/
def overLimit (L : ClientLimits) (st : ClientState) : Bool :=
  decide (L.requestLimit ≤ st.requestsMade) ||
    decide (L.dataLimit ≤ st.dataReceived) ||
      decide (L.errorLimit ≤ st.errorsMade)

/-- The sleep duration computed inside the wait loop:
`60 - (time.time() - self.lastReset)`. -/
def timeToWait (st : ClientState) (now : Rat) : Rat :=
  60 - (now - st.lastReset)

/-- The wait loop of `BeaApiClient.checkLimits` (lines 88–96).  Each
iteration reads the clock once for `timeToWait` (stream index `k`), sleeps if
the wait is positive (time passing is reflected in the stream values), then
calls `resetCounters`, which reads the clock again (index `k + 1`).
`fuel` bounds the number of iterations we run; `none` means the loop was
still running when the fuel ran out. -/
def waitLoop (L : ClientLimits) (times : Nat → Rat) :
    Nat → Nat → ClientState → Option (ClientState × Nat)
  | 0, _, _ => none
  | fuel + 1, k, st =>
    if overLimit L st then
      -- `timeToWait st (times k)` is computed and possibly slept through;
      -- its effect on the clock is captured by the stream hypothesis of the
      -- termination theorems.  `resetCounters` then reads `times (k + 1)`.
      waitLoop L times fuel (k + 2) (resetCounters st (times (k + 1)))
    else
      some (st, k)

/-- An HTTP response as `checkLimits` observes it: status code, body size in
bytes (`len(response.content)`), and the parsed JSON body (abstract). -/
structure HttpResponse where
  statusCode : Nat
  contentSize : Nat
  body : String
deriving DecidableEq, Repr

/-- Lines 99–112 of `checkLimits`: the part after the wait loop.  Increment
`requestsMade` by one and `dataReceived` by the measured size
unconditionally; on a non-200 status additionally increment `errorsMade` and
raise (`Except.error status`); on a 200, return the parsed body. -/
def performRequest (st : ClientState) (resp : HttpResponse) :
    ClientState × Except Nat String :=
  let st' := { st with
    requestsMade := st.requestsMade + 1
    dataReceived := st.dataReceived + resp.contentSize }
  if resp.statusCode ≠ 200 then
    ({ st' with errorsMade := st'.errorsMade + 1 }, Except.error resp.statusCode)
  else
    (st', Except.ok resp.body)

/-- `BeaApiClient.checkLimits` (and hence `sendRequest`): the entry
`resetCounters` reads `times 0`, the wait loop consumes readings from index 1
on, and the request is issued in the state the wait loop ends in. -/
def checkLimits (L : ClientLimits) (fuel : Nat) (times : Nat → Rat)
    (st : ClientState) (resp : HttpResponse) :
    Option (ClientState × Except Nat String) :=
  (waitLoop L times fuel 1 (resetCounters st (times 0))).map
    (fun p => performRequest p.1 resp)

/-- One entry of a fetch trace: the clock-reading stream the call consumes
and the response the server gives it. -/
structure FetchCall where
  times : Nat → Rat
  resp : HttpResponse

/-- A sequence of `fetch` (`sendRequest`) calls on one client, threading the
window state; `none` as soon as one call's wait loop exhausts its fuel. -/
def runFetches (L : ClientLimits) (fuel : Nat) :
    List FetchCall → ClientState → Option ClientState
  | [], st => some st
  | c :: cs, st =>
    match checkLimits L fuel c.times st c.resp with
    | none => none
    | some (st', _) => runFetches L fuel cs st'

/-! ## Python values (`src/downloadBeaDatasets.py`, `src/beaData.py`)

The catalog code moves JSON trees and the lists stored on `BeaDataSet`
objects around.  Every value this program constructs or consumes is a
string, a boolean (after `updateParametersLists`), a list, or a dict with
string keys. -/

/-- A Python value as it occurs in this program. -/
inductive PyVal where
  | str (s : String)
  | bool (b : Bool)
  | list (xs : List PyVal)
  | dict (kvs : List (String × PyVal))
deriving Repr

/-- Python `d.get(k, default)` on a dict. -/
def dictGet (kvs : List (String × PyVal)) (k : String) (dflt : PyVal) : PyVal :=
  match kvs.find? (fun p => p.1 == k) with
  | some p => p.2
  | none => dflt

/-- Python `d[k]` on a dict: `none` is a `KeyError`. -/
def dictGetStrict (kvs : List (String × PyVal)) (k : String) : Option PyVal :=
  (kvs.find? (fun p => p.1 == k)).map (fun p => p.2)

/-- Python `v[k]` when `v` may not even be a dict (`TypeError` otherwise). -/
def pyIndex (v : PyVal) (k : String) : Option PyVal :=
  match v with
  | .dict kvs => dictGetStrict kvs k
  | _ => none

/-- Python `v == s` for a string literal `s` — true exactly when `v` is that
string (this is the only shape of `==` the catalog code uses, in
`updateParametersLists`). -/
def pyEqStr (v : PyVal) (s : String) : Bool :=
  match v with
  | .str t => t == s
  | _ => false

/-! ### Python `repr`/`str` of these values

`writeDataSetsToFile` serializes each list field with `str(...)`, which for
lists and dicts is `repr`.  `repr` of a string picks a quote character
(single, unless the string contains a single quote and no double quote),
escapes the backslash, the chosen quote, `\n`, `\r`, `\t`, and other control
characters as `\xhh`, and emits every other character as itself.  (Python
also hex-escapes unprintable characters above U+007F; those never occur in
the data this program handles and are emitted raw here.) -/

/-- Lower-case hex digit, as Python's `\xhh` escapes use. -/
def hexDigitChar (n : Nat) : Char :=
  if n < 10 then Char.ofNat (48 + n) else Char.ofNat (87 + n)

/-- The quote character `repr` picks for a string. -/
def pyQuote (s : String) : Char :=
  if s.contains '\'' && !(s.contains '"') then '"' else '\''

/-- How `repr` renders one character inside a string quoted by `q`. -/
def escapeChar (q : Char) (c : Char) : List Char :=
  if c = '\\' then ['\\', '\\']
  else if c = q then ['\\', q]
  else if c = '\n' then ['\\', 'n']
  else if c = '\r' then ['\\', 'r']
  else if c = '\t' then ['\\', 't']
  else if c.toNat < 32 ∨ c.toNat = 127 then
    ['\\', 'x', hexDigitChar (c.toNat / 16), hexDigitChar (c.toNat % 16)]
  else [c]

/-- `repr` of a string, as a character list. -/
def reprStrChars (s : String) : List Char :=
  pyQuote s :: s.data.flatMap (escapeChar (pyQuote s)) ++ [pyQuote s]

mutual

/-- Python `repr` of a value, as a character list. -/
def pyReprChars : PyVal → List Char
  | .str s => reprStrChars s
  | .bool true => ['T', 'r', 'u', 'e']
  | .bool false => ['F', 'a', 'l', 's', 'e']
  | .list xs => '[' :: pyReprListChars xs ++ [']']
  | .dict kvs => '{' :: pyReprDictChars kvs ++ ['}']

/-- The comma-separated element renderings inside `repr` of a list. -/
def pyReprListChars : List PyVal → List Char
  | [] => []
  | [x] => pyReprChars x
  | x :: y :: rest => pyReprChars x ++ ',' :: ' ' :: pyReprListChars (y :: rest)

/-- The comma-separated `key: value` renderings inside `repr` of a dict. -/
def pyReprDictChars : List (String × PyVal) → List Char
  | [] => []
  | [(k, v)] => reprStrChars k ++ ':' :: ' ' :: pyReprChars v
  | (k, v) :: e :: rest =>
    reprStrChars k ++ ':' :: ' ' :: pyReprChars v ++ ',' :: ' ' :: pyReprDictChars (e :: rest)

end

/-- Python `repr` of a value. -/
def pyRepr (v : PyVal) : String :=
  String.mk (pyReprChars v)

/-- Python `str` of a value (what an f-string interpolates): the string
itself for strings, `repr` otherwise. -/
def pyStr : PyVal → String
  | .str s => s
  | v => pyRepr v

/-! ### Response-shape helpers and extraction functions -/

/-- `ensureResponseIsList`: a dict is wrapped in a one-element list, a list
is returned unchanged, anything else becomes the empty list. -/
def ensureResponseIsList (value : PyVal) : List PyVal :=
  match value with
  | .dict kvs => [.dict kvs]
  | .list xs => xs
  | _ => []

/-- The loop body of `extractDataSets` over the already-iterable dataset
list: each element must be a dict (`.get` on anything else is an
`AttributeError`), and contributes its name and description with the
`"N/A"` defaults. -/
def extractDataSetsFrom : List PyVal → Option (List PyVal × List PyVal)
  | [] => some ([], [])
  | .dict kvs :: rest =>
    (extractDataSetsFrom rest).map (fun p =>
      (dictGet kvs "DatasetName" (.str "N/A") :: p.1,
        dictGet kvs "DatasetDescription" (.str "N/A") :: p.2))
  | _ => none

/-- `extractDataSets`: iterates directly over its argument — there is no
`ensureResponseIsList` coercion here.  Iterating a Python list visits its
elements; iterating a nonempty dict visits its (string) keys, on which
`.get` raises `AttributeError`; iterating an empty dict or empty string
visits nothing; iterating a bool raises `TypeError`; iterating a nonempty
string visits one-character strings, on which `.get` raises. -/
def extractDataSets (dataSets : PyVal) : Option (List PyVal × List PyVal) :=
  match dataSets with
  | .list xs => extractDataSetsFrom xs
  | .dict [] => some ([], [])
  | .str s => if s = "" then some ([], []) else none
  | _ => none

/-- The loop body of `extractParamInfo` over the coerced parameter list. -/
def extractParamInfoFrom :
    List PyVal →
      Option (List PyVal × List PyVal × List PyVal × List PyVal × List PyVal × List PyVal)
  | [] => some ([], [], [], [], [], [])
  | .dict kvs :: rest =>
    (extractParamInfoFrom rest).map (fun p =>
      (dictGet kvs "ParameterName" (.str "N/A") :: p.1,
        dictGet kvs "ParameterDescription" (.str "N/A") :: p.2.1,
        dictGet kvs "ParameterIsRequiredFlag" (.str "N/A") :: p.2.2.1,
        dictGet kvs "ParameterDefaultValue" (.str "N/a") :: p.2.2.2.1,
        dictGet kvs "MultipleAcceptedFlag" (.str "N/a") :: p.2.2.2.2.1,
        dictGet kvs "AllValue" (.str "N/a") :: p.2.2.2.2.2))
  | _ => none

/-- `extractParamInfo`: coerce the response with `ensureResponseIsList`,
then collect the six per-parameter attribute lists. -/
def extractParamInfo (parameters : PyVal) :
    Option (List PyVal × List PyVal × List PyVal × List PyVal × List PyVal × List PyVal) :=
  extractParamInfoFrom (ensureResponseIsList parameters)

/-- The loop of the `"Year"` special case in `extractValidInputs`: each
entry `inputs[i]` must be a dict holding all seven keys (`inputs[i][key]`
raises otherwise); the record is built from the table identifier and the
three year-range pairs, the ranges interpolated through `str` by the
f-strings. -/
def yearRows (k0 k1 k2 k3 k4 k5 k6 : String) :
    List PyVal → Option (List PyVal × List PyVal)
  | [] => some ([], [])
  | .dict kvs :: rest => do
    let tbl ← dictGetStrict kvs k0
    let a1 ← dictGetStrict kvs k1
    let a2 ← dictGetStrict kvs k2
    let q1 ← dictGetStrict kvs k3
    let q2 ← dictGetStrict kvs k4
    let m1 ← dictGetStrict kvs k5
    let m2 ← dictGetStrict kvs k6
    let p ← yearRows k0 k1 k2 k3 k4 k5 k6 rest
    some (PyVal.dict [("TableName", tbl),
        ("Annual year Range", .str (pyStr a1 ++ "-" ++ pyStr a2)),
        ("Quarterly Year Range", .str (pyStr q1 ++ "-" ++ pyStr q2)),
        ("Monthly Year Range", .str (pyStr m1 ++ "-" ++ pyStr m2))] :: p.1,
      PyVal.str ("Year ranges for annual, quarterly, and monthly data from table: "
          ++ pyStr tbl) :: p.2)
  | _ => none

/-- The loop of the default branch of `extractValidInputs`: each entry
contributes `inputs[i][inputsKeys[0]]` as value and
`inputs[i][inputsKeys[1]]` as description. -/
def defaultRows (k0 k1 : String) : List PyVal → Option (List PyVal × List PyVal)
  | [] => some ([], [])
  | .dict kvs :: rest => do
    let v ← dictGetStrict kvs k0
    let d ← dictGetStrict kvs k1
    let p ← defaultRows k0 k1 rest
    some (v :: p.1, d :: p.2)
  | _ => none

/-- `extractValidInputs`: coerce the response, pick the special branch for
the `"Year"` parameter of the three special datasets, read the key list of
`inputs[0]` (an `IndexError` on an empty coerced list, an `AttributeError`
on a non-dict first element, an `IndexError` if it has fewer keys than the
branch indexes), then run the corresponding loop. -/
def extractValidInputs (inputs0 : PyVal) (dataSetName paramName : String) :
    Option (List PyVal × List PyVal) :=
  let inputs := ensureResponseIsList inputs0
  if dataSetName ∈ (["NIPA", "NIUnderlyingDetail", "FixedAssets"] : List String)
      ∧ paramName = "Year" then
    match inputs with
    | [] => none
    | PyVal.dict kvs0 :: _ =>
      match kvs0.map Prod.fst with
      | k0 :: k1 :: k2 :: k3 :: k4 :: k5 :: k6 :: _ => yearRows k0 k1 k2 k3 k4 k5 k6 inputs
      | _ => none
    | _ => none
  else
    match inputs with
    | [] => none
    | PyVal.dict kvs0 :: _ =>
      match kvs0.map Prod.fst with
      | k0 :: k1 :: _ => defaultRows k0 k1 inputs
      | _ => none
    | _ => none

/-! ### The `BeaDataSet` object (`src/beaData.py`) and the catalog builder -/

/-- A `BeaDataSet` object.  The eight per-dataset fields hold whatever
Python value was assigned to them (always lists in this program); the name
and description are the strings the API returned. -/
structure BeaDataSet where
  dataSetName : String
  dataSetDescription : String
  parameters : PyVal
  parametersDescriptions : PyVal
  parametersRequiredInRequest : PyVal
  parametersDefaultValues : PyVal
  parametersMultipleValsAcceptedInRequest : PyVal
  parametersAllValueRequest : PyVal
  parameterInputs : PyVal
  parameterInputsDescriptions : PyVal
deriving Repr

/-- `BeaDataSet.__init__ (name, description)`: all list fields empty. -/
def mkBeaDataSet (name description : String) : BeaDataSet :=
  { dataSetName := name
    dataSetDescription := description
    parameters := .list []
    parametersDescriptions := .list []
    parametersRequiredInRequest := .list []
    parametersDefaultValues := .list []
    parametersMultipleValsAcceptedInRequest := .list []
    parametersAllValueRequest := .list []
    parameterInputs := .list []
    parameterInputsDescriptions := .list [] }

/-- Maps over the elements of a `PyVal` list (the index loops of
`updateParametersLists`, whose lists all have equal length coming from
`extractParamInfo`); non-list values pass through untouched. -/
def mapPyList (f : PyVal → PyVal) : PyVal → PyVal
  | .list xs => .list (xs.map f)
  | v => v

/-- `BeaDataSet.updateParametersLists`: required and multiple-accepted
flags become the boolean `x == '1'`; empty-string default values and
all-value tokens become `'N/a'`. -/
def updateParametersLists (d : BeaDataSet) : BeaDataSet :=
  { d with
    parametersRequiredInRequest :=
      mapPyList (fun x => .bool (pyEqStr x "1")) d.parametersRequiredInRequest
    parametersMultipleValsAcceptedInRequest :=
      mapPyList (fun x => .bool (pyEqStr x "1")) d.parametersMultipleValsAcceptedInRequest
    parametersAllValueRequest :=
      mapPyList (fun x => if pyEqStr x "" then .str "N/a" else x) d.parametersAllValueRequest
    parametersDefaultValues :=
      mapPyList (fun x => if pyEqStr x "" then .str "N/a" else x) d.parametersDefaultValues }

/-- `response['BEAAPI']['Results'][k]` — the indexing chain applied to
every API response in `downloadBeaDatasets`. -/
def beaResults (resp : PyVal) (k : String) : Option PyVal :=
  (pyIndex resp "BEAAPI").bind (fun r => (pyIndex r "Results").bind (fun r2 => pyIndex r2 k))

/-- The inner loop of `downloadBeaDatasets`: fetch and extract the valid
inputs of each parameter of a dataset, collecting the per-parameter lists.
The source's `if name in [...] and paramName == 'Year'` at the call site
runs identical code in both branches; the special-casing lives inside
`extractValidInputs`. -/
def collectParamInputs (inputResp : String → String → PyVal) (name : String) :
    List PyVal → Option (List PyVal × List PyVal)
  | [] => some ([], [])
  | p :: rest => do
    let inputs ← beaResults (inputResp name (pyStr p)) "ParamValue"
    let vi ← extractValidInputs inputs name (pyStr p)
    let acc ← collectParamInputs inputResp name rest
    some (PyVal.list vi.1 :: acc.1, PyVal.list vi.2 :: acc.2)

/-- The body of `downloadBeaDatasets`'s outer loop for one dataset: fetch
the parameter list, extract and post-process the six attribute lists, then
collect the valid inputs of every parameter.  Names and descriptions are
strings in every response this API serves (`str(...)` is applied where
Python would interpolate them). -/
def buildOneDataSet (paramResp : String → PyVal)
    (inputResp : String → String → PyVal) (nameV descV : PyVal) :
    Option BeaDataSet := do
  let name := pyStr nameV
  let params ← beaResults (paramResp name) "Parameter"
  let info ← extractParamInfo params
  let d0 := { mkBeaDataSet name (pyStr descV) with
    parameters := .list info.1
    parametersDescriptions := .list info.2.1
    parametersRequiredInRequest := .list info.2.2.1
    parametersDefaultValues := .list info.2.2.2.1
    parametersMultipleValsAcceptedInRequest := .list info.2.2.2.2.1
    parametersAllValueRequest := .list info.2.2.2.2.2 }
  let d1 := updateParametersLists d0
  let acc ← collectParamInputs inputResp name info.1
  some { d1 with
    parameterInputs := .list acc.1
    parameterInputsDescriptions := .list acc.2 }

/-- The outer loop of `downloadBeaDatasets` over the zipped
(name, description) pairs. -/
def buildDataSets (paramResp : String → PyVal)
    (inputResp : String → String → PyVal) :
    List (PyVal × PyVal) → Option (List BeaDataSet)
  | [] => some []
  | (n, d) :: rest => do
    let ds ← buildOneDataSet paramResp inputResp n d
    let tail ← buildDataSets paramResp inputResp rest
    some (ds :: tail)

/-- `downloadBeaDatasets`, parametric in the API: `dsResp` is the JSON of
the `GETDATASETLIST` request, `paramResp name` that of the per-dataset
`getparameterlist` request and `inputResp name param` that of the
per-parameter `GetParameterValues` request.  Any failure (`none`) aborts
the whole build — there is no `try` anywhere on this path. -/
def downloadBeaDatasets (dsResp : PyVal) (paramResp : String → PyVal)
    (inputResp : String → String → PyVal) : Option (List BeaDataSet) := do
  let datasets ← beaResults dsResp "Dataset"
  let nd ← extractDataSets datasets
  buildDataSets paramResp inputResp (nd.1.zip nd.2)

/-! ### Concrete API responses used to exercise the builder -/

/-- A `GETDATASETLIST` response with two datasets. -/
def twoDataSetsResp : PyVal :=
  .dict [("BEAAPI", .dict [("Results", .dict [("Dataset",
    .list [.dict [("DatasetName", .str "DS1"), ("DatasetDescription", .str "first")],
           .dict [("DatasetName", .str "DS2"), ("DatasetDescription", .str "second")]])])])]

/-- A `getparameterlist` response whose `Parameter` field is a single bare
object (not a list). -/
def singleParamResp : PyVal :=
  .dict [("BEAAPI", .dict [("Results", .dict [("Parameter",
    .dict [("ParameterName", .str "P1"),
           ("ParameterDescription", .str "param one"),
           ("ParameterIsRequiredFlag", .str "1"),
           ("ParameterDefaultValue", .str ""),
           ("MultipleAcceptedFlag", .str "0"),
           ("AllValue", .str "ALL")])])])]

/-- A `GetParameterValues` response whose `ParamValue` field is the empty
list. -/
def emptyParamValueResp : PyVal :=
  .dict [("BEAAPI", .dict [("Results", .dict [("ParamValue", .list [])])])]

/-! ### Year-parameter response entries (for the `"Year"` special case) -/

/-- The seven values of one entry of a `GetParameterValues` response for the
`"Year"` parameter of the special datasets: a table identifier and three
(start, end) year-range pairs. -/
structure YearEntryRaw where
  table : PyVal
  a1 : PyVal
  a2 : PyVal
  q1 : PyVal
  q2 : PyVal
  m1 : PyVal
  m2 : PyVal

/-- Such an entry as the API serves it: a dict with seven keys in order. -/
def yearEntryDict (k0 k1 k2 k3 k4 k5 k6 : String) (e : YearEntryRaw) : PyVal :=
  .dict [(k0, e.table), (k1, e.a1), (k2, e.a2), (k3, e.q1), (k4, e.q2),
    (k5, e.m1), (k6, e.m2)]

/-- The record `extractValidInputs` builds from such an entry. -/
def yearEntryRecord (e : YearEntryRaw) : PyVal :=
  .dict [("TableName", e.table),
    ("Annual year Range", .str (pyStr e.a1 ++ "-" ++ pyStr e.a2)),
    ("Quarterly Year Range", .str (pyStr e.q1 ++ "-" ++ pyStr e.q2)),
    ("Monthly Year Range", .str (pyStr e.m1 ++ "-" ++ pyStr e.m2))]

/-- The description `extractValidInputs` synthesizes for such an entry. -/
def yearEntryDescription (e : YearEntryRaw) : String :=
  "Year ranges for annual, quarterly, and monthly data from table: " ++ pyStr e.table

/-- The example entry of the specification: table `"T1"`, annual range
1990–2020, quarterly 1999–2020, monthly 2015–2020. -/
def yearExampleEntry : YearEntryRaw :=
  { table := .str "T1", a1 := .str "1990", a2 := .str "2020", q1 := .str "1999",
    q2 := .str "2020", m1 := .str "2015", m2 := .str "2020" }

/-- The example `"Year"` response of the specification, with keys `Table`,
`A1`, `A2`, `Q1`, `Q2`, `M1`, `M2`. -/
def yearExampleResponse : PyVal :=
  .list [yearEntryDict "Table" "A1" "A2" "Q1" "Q2" "M1" "M2" yearExampleEntry]

/-! ### Dates and fiscal quarters -/

/-- A `datetime` date. -/
structure PyDate where
  year : Nat
  month : Nat
  day : Nat
deriving DecidableEq, Repr

/-- The Gregorian leap-year rule, as `datetime` validates dates with. -/
def isLeapYear (y : Nat) : Bool :=
  y % 4 == 0 && (y % 100 != 0 || y % 400 == 0)

/-- Days in a month, as `datetime` validates dates with. -/
def daysInMonth (y m : Nat) : Nat :=
  if m = 2 then (if isLeapYear y then 29 else 28)
  else if m = 4 ∨ m = 6 ∨ m = 9 ∨ m = 11 then 30
  else 31

/-- A date `datetime` would accept (and, for the round-trip statements, one
whose year prints as four digits). -/
def validDate (d : PyDate) : Prop :=
  1 ≤ d.year ∧ d.year ≤ 9999 ∧ 1 ≤ d.month ∧ d.month ≤ 12 ∧
    1 ≤ d.day ∧ d.day ≤ daysInMonth d.year d.month

instance (d : PyDate) : Decidable (validDate d) := by
  unfold validDate; infer_instance

/-- `getFiscalQuarter`: `math.ceil(date.month / 3)`, which for the months
1–12 is `(month + 2) / 3` in integer division. -/
def getFiscalQuarter (d : PyDate) : Nat :=
  (d.month + 2) / 3

/-- Python `str.strip()` whitespace (the ASCII part; the catalog data is
ASCII). -/
def isPySpace (c : Char) : Bool :=
  c = ' ' || c = '\t' || c = '\n' || c = '\r' || c = '\x0b' || c = '\x0c'

/-- Python `s.strip()`. -/
def pyStrip (s : String) : String :=
  String.mk (((s.data.dropWhile isPySpace).reverse.dropWhile isPySpace).reverse)

/-- The decimal digit character of `n % 10`. -/
def digitChar10 (n : Nat) : Char :=
  match n % 10 with
  | 0 => '0' | 1 => '1' | 2 => '2' | 3 => '3' | 4 => '4'
  | 5 => '5' | 6 => '6' | 7 => '7' | 8 => '8' | _ => '9'

/-- A number as exactly four decimal digits (`strftime` `%Y` for the years
this program writes). -/
def format4 (n : Nat) : List Char :=
  [digitChar10 (n / 1000), digitChar10 (n / 100), digitChar10 (n / 10), digitChar10 n]

/-- A number as exactly two decimal digits (`strftime` `%m` / `%d`). -/
def format2 (n : Nat) : List Char :=
  [digitChar10 (n / 10), digitChar10 n]

/-- `currentDate.strftime("%Y-%m-%d")` — the date line
`writeDataSetsToFile` puts at the top of the cache file. -/
def formatDate (d : PyDate) : String :=
  String.mk (format4 d.year ++ '-' :: format2 d.month ++ '-' :: format2 d.day)

/-- The numeric value of a digit string. -/
def digitsToNat (cs : List Char) : Nat :=
  cs.foldl (fun a c => 10 * a + (c.toNat - 48)) 0

/-- Split a character list at every `'-'` (always at least one group). -/
def splitDash : List Char → List (List Char)
  | [] => [[]]
  | c :: cs =>
    match splitDash cs with
    | [] => [[c]]
    | g :: gs => if c = '-' then [] :: g :: gs else (c :: g) :: gs

/-- `datetime.strptime(s, "%Y-%m-%d")`: three dash-separated digit groups
(up to four digits of year, up to two of month and day, each non-empty),
validated as a real calendar date; `none` is the `ValueError` it raises
otherwise. -/
def parseDate (s : String) : Option PyDate :=
  match splitDash s.data with
  | [ys, ms, ds] =>
    if ys ≠ [] ∧ ys.length ≤ 4 ∧ (∀ c ∈ ys, c.isDigit) ∧
        ms ≠ [] ∧ ms.length ≤ 2 ∧ (∀ c ∈ ms, c.isDigit) ∧
        ds ≠ [] ∧ ds.length ≤ 2 ∧ (∀ c ∈ ds, c.isDigit) then
      let y := digitsToNat ys
      let m := digitsToNat ms
      let d := digitsToNat ds
      if validDate ⟨y, m, d⟩ then some ⟨y, m, d⟩ else none
    else none
  | _ => none

/-! ### The literal parser modelling `eval` on the cache lines

`readBeaDataSets.parseList` applies `eval` to each stored line.  On the
lines this program writes, `eval` only ever evaluates the literal syntax
`str`/`repr` emits: quoted strings with backslash escapes, `True`/`False`,
`[a, b]` lists and `{'k': v}` dicts with `", "` and `": "` separators.  The
functions below evaluate exactly that grammar; anything else — including
literal forms (numbers, extra whitespace, exotic escapes) that never occur
in a program-written file — is `none`, as a `SyntaxError` would be. -/

/-- The value of a hex digit (`\xhh` escapes accept both cases). -/
def hexCharVal (c : Char) : Option Nat :=
  if '0' ≤ c ∧ c ≤ '9' then some (c.toNat - 48)
  else if 'a' ≤ c ∧ c ≤ 'f' then some (c.toNat - 87)
  else if 'A' ≤ c ∧ c ≤ 'F' then some (c.toNat - 55)
  else none

mutual

/-- Parse the body of a string literal quoted by `q`, handling the escapes
`repr` emits; returns the string and the input after the closing quote. -/
def parseStrBody (q : Char) : List Char → List Char → Option (String × List Char)
  | [], _ => none
  | c :: cs, acc =>
    if c = q then some (String.mk acc, cs)
    else if c = '\\' then parseStrEsc q cs acc
    else parseStrBody q cs (acc ++ [c])

/-- The character after a backslash inside a string literal. -/
def parseStrEsc (q : Char) : List Char → List Char → Option (String × List Char)
  | [], _ => none
  | e :: cs, acc =>
    if e = '\\' then parseStrBody q cs (acc ++ ['\\'])
    else if e = '\'' then parseStrBody q cs (acc ++ ['\''])
    else if e = '"' then parseStrBody q cs (acc ++ ['"'])
    else if e = 'n' then parseStrBody q cs (acc ++ ['\n'])
    else if e = 'r' then parseStrBody q cs (acc ++ ['\r'])
    else if e = 't' then parseStrBody q cs (acc ++ ['\t'])
    else if e = 'x' then parseStrHex q cs acc
    else none

/-- The two hex digits of a `\xhh` escape inside a string literal. -/
def parseStrHex (q : Char) : List Char → List Char → Option (String × List Char)
  | h1 :: h2 :: cs, acc =>
    (match hexCharVal h1, hexCharVal h2 with
     | some v1, some v2 => parseStrBody q cs (acc ++ [Char.ofNat (16 * v1 + v2)])
     | _, _ => none)
  | _, _ => none

end

mutual

/-- Parse one literal value; the fuel bounds the nesting and item count. -/
def parsePyVal : Nat → List Char → Option (PyVal × List Char)
  | 0, _ => none
  | _ + 1, [] => none
  | f + 1, c :: cs =>
    if c = '\'' then (parseStrBody '\'' cs []).map (fun p => (PyVal.str p.1, p.2))
    else if c = '"' then (parseStrBody '"' cs []).map (fun p => (PyVal.str p.1, p.2))
    else if c = '[' then
      if cs.head? = some ']' then some (.list [], cs.tail)
      else (parseListItems f cs).map (fun p => (PyVal.list p.1, p.2))
    else if c = '{' then
      if cs.head? = some '}' then some (.dict [], cs.tail)
      else (parseDictItems f cs).map (fun p => (PyVal.dict p.1, p.2))
    else if c = 'T' then
      if cs.take 3 = ['r', 'u', 'e'] then some (.bool true, cs.drop 3) else none
    else if c = 'F' then
      if cs.take 4 = ['a', 'l', 's', 'e'] then some (.bool false, cs.drop 4) else none
    else none

/-- Parse the non-empty comma-separated items of a list literal up to and
including the closing `]`. -/
def parseListItems : Nat → List Char → Option (List PyVal × List Char)
  | 0, _ => none
  | f + 1, cs =>
    (parsePyVal f cs).bind fun p =>
      if p.2.head? = some ']' then some ([p.1], p.2.tail)
      else if p.2.take 2 = [',', ' '] then
        (parseListItems f (p.2.drop 2)).bind fun q => some (p.1 :: q.1, q.2)
      else none

/-- Parse the non-empty comma-separated `'key': value` items of a dict
literal up to and including the closing `}`. -/
def parseDictItems : Nat → List Char → Option (List (String × PyVal) × List Char)
  | 0, _ => none
  | f + 1, cs =>
    ((if cs.head? = some '\'' then parseStrBody '\'' cs.tail []
      else if cs.head? = some '"' then parseStrBody '"' cs.tail []
      else none) :
        Option (String × List Char)).bind fun pk =>
      if pk.2.take 2 = [':', ' '] then
        (parsePyVal f (pk.2.drop 2)).bind fun pv =>
          if pv.2.head? = some '}' then some ([(pk.1, pv.1)], pv.2.tail)
          else if pv.2.take 2 = [',', ' '] then
            (parseDictItems f (pv.2.drop 2)).bind fun pr =>
              some ((pk.1, pv.1) :: pr.1, pr.2)
          else none
      else none

end

mutual

/-- Fuel that always suffices for `parsePyVal` on the `repr` of a value. -/
def pyFuel : PyVal → Nat
  | .str _ => 1
  | .bool _ => 1
  | .list [] => 1
  | .list (x :: xs) => 1 + pyFuelItems (x :: xs)
  | .dict [] => 1
  | .dict (e :: kvs) => 1 + pyFuelDictItems (e :: kvs)

/-- Fuel that always suffices for `parseListItems` on rendered items. -/
def pyFuelItems : List PyVal → Nat
  | [] => 1
  | x :: xs => 1 + pyFuel x + pyFuelItems xs

/-- Fuel that always suffices for `parseDictItems` on rendered items. -/
def pyFuelDictItems : List (String × PyVal) → Nat
  | [] => 1
  | (_, v) :: kvs => 1 + pyFuel v + pyFuelDictItems kvs

end

/-- Whether a Python value is a list (the shape the eight `BeaDataSet`
fields have in every catalog this program builds). -/
def isListVal : PyVal → Bool
  | .list _ => true
  | _ => false

/-- `eval` of one stored literal: parse with ample fuel (two units per input
character always suffice for this grammar) and require the input to be
consumed. -/
def pyEvalLiteral (cs : List Char) : Option PyVal :=
  match parsePyVal (2 * cs.length + 2) cs with
  | some (v, []) => some v
  | _ => none

/-- `readBeaDataSets.parseList`: strip the line; an empty result is the
empty list, anything else goes through `eval`. -/
def parseListLine (line : String) : Option PyVal :=
  let t := pyStrip line
  if t = "" then some (.list [])
  else pyEvalLiteral t.data

/-! ### The cache file (`writeDataSetsToFile` / `readBeaDataSets`)

The file is modelled as its list of lines (each written with a trailing
newline; `readline` past the end returns the empty string, which
`List.getD _ ""` mirrors). -/

/-- The eleven lines `writeDataSetsToFile` emits for one dataset: name,
description, the eight list fields through `str(...)`, and the `"\0"`
delimiter line. -/
def dataSetLines (d : BeaDataSet) : List String :=
  [d.dataSetName, d.dataSetDescription, pyStr d.parameters,
    pyStr d.parametersDescriptions, pyStr d.parametersRequiredInRequest,
    pyStr d.parametersDefaultValues, pyStr d.parametersMultipleValsAcceptedInRequest,
    pyStr d.parametersAllValueRequest, pyStr d.parameterInputs,
    pyStr d.parameterInputsDescriptions, "\x00"]

/-- `writeDataSetsToFile`: the current date line, then each dataset's
block. -/
def writeDataSetsToFile (dataSetObjects : List BeaDataSet) (now : PyDate) :
    List String :=
  formatDate now :: dataSetObjects.flatMap dataSetLines

/-- The dataset-reading loop of `readBeaDataSets` (lines 97–128): read a
name line (stopping at an empty one — also what `readline` yields at end of
file), the description, the eight `parseList` lines, skip the delimiter
line, repeat.  `none` is an exception escaping the loop (caught by the
caller, which then returns `None`). -/
def parseDataSetsLines : List String → Option (List BeaDataSet)
  | [] => some []
  | nameLine :: rest =>
    let name := pyStrip nameLine
    if name = "" then some []
    else
      (parseListLine (rest.getD 1 "")).bind fun p1 =>
      (parseListLine (rest.getD 2 "")).bind fun p2 =>
      (parseListLine (rest.getD 3 "")).bind fun p3 =>
      (parseListLine (rest.getD 4 "")).bind fun p4 =>
      (parseListLine (rest.getD 5 "")).bind fun p5 =>
      (parseListLine (rest.getD 6 "")).bind fun p6 =>
      (parseListLine (rest.getD 7 "")).bind fun p7 =>
      (parseListLine (rest.getD 8 "")).bind fun p8 =>
      -- `rest.getD 9` is the delimiter line, read and discarded
      (parseDataSetsLines (rest.drop 10)).bind fun tail =>
      some ({ dataSetName := name
              dataSetDescription := pyStrip (rest.getD 0 "")
              parameters := p1
              parametersDescriptions := p2
              parametersRequiredInRequest := p3
              parametersDefaultValues := p4
              parametersMultipleValsAcceptedInRequest := p5
              parametersAllValueRequest := p6
              parameterInputs := p7
              parameterInputsDescriptions := p8 } :: tail)
termination_by lines => lines.length
decreasing_by simp only [List.length_cons, List.length_drop]; omega

/-- `readBeaDataSets`, parametric in the clock and the builder: the first
line must parse as a date (else the generic handler returns `None`); a stale
file (current year strictly greater, or different quarter) triggers the
builder, whose result is written back and returned; a fresh file is
deserialized with no network access.  The result carries the catalog, a
flag recording whether the builder (network) ran, and the file content
afterwards. -/
def readBeaDataSets (fileLines : List String) (currentDate : PyDate)
    (downloaded : List BeaDataSet) : Option (List BeaDataSet × Bool × List String) :=
  match parseDate (pyStrip (fileLines.getD 0 "")) with
  | none => none
  | some fileDate =>
    if currentDate.year > fileDate.year ∨
        getFiscalQuarter currentDate ≠ getFiscalQuarter fileDate then
      some (downloaded, true, writeDataSetsToFile downloaded currentDate)
    else
      (parseDataSetsLines (fileLines.drop 1)).map (fun ds => (ds, false, fileLines))

/-! ### Helper lemmas about the wait loop -/

/-- `resetCounters` either fires (window rollover) or is the identity. -/
theorem resetCounters_cases (st : ClientState) (now : Rat) :
    (60 < now - st.lastReset ∧
      resetCounters st now =
        { requestsMade := 0, dataReceived := 0, errorsMade := 0, lastReset := now }) ∨
    (¬ 60 < now - st.lastReset ∧ resetCounters st now = st) := by
  by_cases h : 60 < now - st.lastReset
  · exact Or.inl ⟨h, by simp [resetCounters, h]⟩
  · exact Or.inr ⟨h, by simp [resetCounters, h]⟩

/-- When the wait loop returns, it returns either its argument state
untouched (the loop body never ran) or a state produced by a window
rollover: all counters zero and `lastReset` strictly more than 60 seconds
later. -/
theorem waitLoop_cases (L : ClientLimits) (times : Nat → Rat) :
    ∀ (fuel k : Nat) (st st' : ClientState) (k' : Nat),
      waitLoop L times fuel k st = some (st', k') →
      (st' = st ∧ k' = k ∧ overLimit L st = false) ∨
      (st'.requestsMade = 0 ∧ st'.dataReceived = 0 ∧ st'.errorsMade = 0 ∧
        st.lastReset + 60 < st'.lastReset) := by
  intro fuel
  induction fuel with
  | zero => intro k st st' k' h; simp [waitLoop] at h
  | succ f ih =>
    intro k st st' k' h
    by_cases hover : overLimit L st = true
    · rw [waitLoop, if_pos hover] at h
      rcases resetCounters_cases st (times (k + 1)) with ⟨hroll, heq⟩ | ⟨_, heq⟩
      · rw [heq] at h
        rcases ih (k + 2) _ st' k' h with ⟨rfl, _, _⟩ | ⟨h1, h2, h3, h4⟩
        · exact Or.inr ⟨rfl, rfl, rfl, by simp only; linarith⟩
        · refine Or.inr ⟨h1, h2, h3, ?_⟩
          simp only at h4
          have : st.lastReset + 60 < times (k + 1) := by linarith
          linarith
      · rw [heq] at h
        rcases ih (k + 2) st st' k' h with ⟨rfl, _, hfalse⟩ | hr
        · rw [hover] at hfalse; cases hfalse
        · exact Or.inr hr
    · rw [waitLoop, if_neg hover] at h
      cases h
      exact Or.inl ⟨rfl, rfl, Bool.not_eq_true _ ▸ (by simpa using hover)⟩

/-- When the wait loop returns, the returned state is under every limit. -/
theorem waitLoop_exit_under_limit (L : ClientLimits) (times : Nat → Rat)
    (fuel k : Nat) (st st' : ClientState) (k' : Nat)
    (h : waitLoop L times fuel k st = some (st', k')) :
    overLimit L st' = false := by
  induction fuel generalizing k st with
  | zero => simp [waitLoop] at h
  | succ f ih =>
    by_cases hover : overLimit L st = true
    · rw [waitLoop, if_pos hover] at h
      exact ih _ _ h
    · rw [waitLoop, if_neg hover] at h
      cases h
      simpa using hover

/-- `performRequest` does not move the window start. -/
theorem performRequest_lastReset (st : ClientState) (resp : HttpResponse) :
    (performRequest st resp).1.lastReset = st.lastReset := by
  unfold performRequest
  by_cases h : resp.statusCode ≠ 200 <;> simp [h]

/-- `performRequest` only increases the three counters. -/
theorem performRequest_mono (st : ClientState) (resp : HttpResponse) :
    st.requestsMade ≤ (performRequest st resp).1.requestsMade ∧
    st.dataReceived ≤ (performRequest st resp).1.dataReceived ∧
    st.errorsMade ≤ (performRequest st resp).1.errorsMade := by
  unfold performRequest
  by_cases h : resp.statusCode ≠ 200 <;> simp [h]

/-! ### Claim C1 -/

/-- C1, counterexample.  The claim says the counters never exceed their
maxima at the start of any call.  But the state at the start of a call is the
state the previous call left behind, and one over-budget response pushes
`dataReceived` past `dataLimit`: after a single fetch of a 2 000 000-byte
body on a client with `dataLimitMb = 1` (`dataLimit = 1048576` bytes), the
state every later call starts from has `dataReceived = 2000000 > 1048576`. -/
theorem c1_counterexample :
    runFetches (mkClientLimits 100 1 30) 1
        [{ times := fun _ => 0
           resp := { statusCode := 200, contentSize := 2000000, body := "b" } }]
        (initClientState 0) =
      some { requestsMade := 1, dataReceived := 2000000, errorsMade := 0, lastReset := 0 } ∧
    (mkClientLimits 100 1 30).dataLimit < 2000000 := by
  refine ⟨?_, by decide⟩
  norm_num [runFetches, checkLimits, waitLoop, resetCounters, overLimit,
    performRequest, initClientState, mkClientLimits]

/-- C1, amended: the counters never exceed (indeed stay strictly below)
their configured maxima at the point each call issues its HTTP request —
that is, in the state the wait loop releases the caller in, which is exactly
the state `performRequest` runs on — although they may exceed the maxima
immediately after a call completes, and hence at the literal entry of the
next call. -/
theorem c1_counters_below_limits_at_request_issue (L : ClientLimits)
    (fuel : Nat) (times : Nat → Rat) (st : ClientState) (resp : HttpResponse)
    (st' : ClientState) (r : Except Nat String)
    (h : checkLimits L fuel times st resp = some (st', r)) :
    ∃ st2 k', waitLoop L times fuel 1 (resetCounters st (times 0)) = some (st2, k') ∧
      performRequest st2 resp = (st', r) ∧
      st2.requestsMade < L.requestLimit ∧
      st2.dataReceived < L.dataLimit ∧
      st2.errorsMade < L.errorLimit := by
  unfold checkLimits at h
  rcases hww : waitLoop L times fuel 1 (resetCounters st (times 0)) with _ | ⟨st2, k'⟩
  · rw [hww] at h; simp at h
  · rw [hww] at h
    simp only [Option.map_some', Option.some.injEq] at h
    have hunder := waitLoop_exit_under_limit L times fuel 1 _ st2 k' hww
    simp only [overLimit, Bool.or_eq_false_iff, decide_eq_false_iff_not, not_le] at hunder
    exact ⟨st2, k', rfl, h, hunder.1.1, hunder.1.2, hunder.2⟩

/-- C1, witness: a concrete call on a fresh client issues its request with
all counters strictly below the limits. -/
theorem c1_witness :
    ∃ st2 k',
      waitLoop (mkClientLimits 100 1 30) (fun _ => 0) 1 1
          (resetCounters (initClientState 0) ((fun _ => (0 : Rat)) 0)) = some (st2, k') ∧
      performRequest st2 { statusCode := 200, contentSize := 5, body := "x" } =
        ({ requestsMade := 1, dataReceived := 5, errorsMade := 0, lastReset := 0 },
          Except.ok "x") ∧
      st2.requestsMade < (mkClientLimits 100 1 30).requestLimit ∧
      st2.dataReceived < (mkClientLimits 100 1 30).dataLimit ∧
      st2.errorsMade < (mkClientLimits 100 1 30).errorLimit :=
  c1_counters_below_limits_at_request_issue (mkClientLimits 100 1 30) 1
    (fun _ => 0) (initClientState 0)
    { statusCode := 200, contentSize := 5, body := "x" }
    { requestsMade := 1, dataReceived := 5, errorsMade := 0, lastReset := 0 }
    (Except.ok "x")
    (by norm_num [checkLimits, waitLoop, resetCounters, overLimit,
      performRequest, initClientState, mkClientLimits])

/-! ### Claim C2 -/

/-- C2: a fetch call that enters the wait loop (the `while` condition holds)
is released only in a state where all three counters are exactly zero; the
loop never hands the caller on to the HTTP request while any counter is
nonzero. -/
theorem c2_release_only_after_full_rollover (L : ClientLimits)
    (times : Nat → Rat) (fuel k : Nat) (st st' : ClientState) (k' : Nat)
    (henter : overLimit L st = true)
    (h : waitLoop L times fuel k st = some (st', k')) :
    st'.requestsMade = 0 ∧ st'.dataReceived = 0 ∧ st'.errorsMade = 0 := by
  rcases waitLoop_cases L times fuel k st st' k' h with ⟨rfl, _, hfalse⟩ | ⟨h1, h2, h3, _⟩
  · rw [henter] at hfalse; cases hfalse
  · exact ⟨h1, h2, h3⟩

/-- C2, witness: a client that already spent its one allowed request enters
the loop and is released exactly in the zero-counter state after the window
rolls over. -/
theorem c2_witness :
    ({ requestsMade := 0, dataReceived := 0, errorsMade := 0,
        lastReset := (100 : Rat) } : ClientState).requestsMade = 0 ∧
    ({ requestsMade := 0, dataReceived := 0, errorsMade := 0,
        lastReset := (100 : Rat) } : ClientState).dataReceived = 0 ∧
    ({ requestsMade := 0, dataReceived := 0, errorsMade := 0,
        lastReset := (100 : Rat) } : ClientState).errorsMade = 0 :=
  c2_release_only_after_full_rollover (mkClientLimits 1 1 1) (fun _ => 100) 2 0
    { requestsMade := 3, dataReceived := 0, errorsMade := 0, lastReset := 0 }
    { requestsMade := 0, dataReceived := 0, errorsMade := 0, lastReset := 100 } 2
    (by decide)
    (by norm_num [waitLoop, resetCounters, overLimit, mkClientLimits])

/-! ### Claim C3 -/

/-- C3: (i) when a rollover is observed (`now - lastReset > 60`) all three
counters are reset to exactly 0 and `lastReset` is set to `now`, in one
atomic state update; (ii) otherwise `resetCounters` changes nothing — no
counter is ever reset individually; (iii) within a window (a completed call
that leaves `lastReset` unchanged observed no rollover) the three counts
only increase. -/
theorem c3_rollover_resets_atomically :
    (∀ (st : ClientState) (now : Rat), 60 < now - st.lastReset →
      resetCounters st now =
        { requestsMade := 0, dataReceived := 0, errorsMade := 0, lastReset := now }) ∧
    (∀ (st : ClientState) (now : Rat), ¬ 60 < now - st.lastReset →
      resetCounters st now = st) ∧
    (∀ (L : ClientLimits) (fuel : Nat) (times : Nat → Rat) (st : ClientState)
        (resp : HttpResponse) (st' : ClientState) (r : Except Nat String),
      checkLimits L fuel times st resp = some (st', r) →
      st'.lastReset = st.lastReset →
      st.requestsMade ≤ st'.requestsMade ∧ st.dataReceived ≤ st'.dataReceived ∧
        st.errorsMade ≤ st'.errorsMade) := by
  refine ⟨fun st now h => by simp [resetCounters, h],
    fun st now h => by simp [resetCounters, h], ?_⟩
  intro L fuel times st resp st' r h hlr
  unfold checkLimits at h
  rcases hww : waitLoop L times fuel 1 (resetCounters st (times 0)) with _ | ⟨st2, k'⟩
  · rw [hww] at h; simp at h
  · rw [hww] at h
    simp only [Option.map_some', Option.some.injEq] at h
    have hst' : st' = (performRequest st2 resp).1 := by rw [h]
    have hlr2 : st2.lastReset = st.lastReset := by
      rw [hst', performRequest_lastReset] at hlr; exact hlr
    rcases resetCounters_cases st (times 0) with ⟨hroll, heq⟩ | ⟨_, heq⟩
    · rw [heq] at hww
      rcases waitLoop_cases L times fuel 1 _ st2 k' hww with ⟨rfl, _, _⟩ | ⟨_, _, _, hlt⟩
      · simp only at hlr2; linarith
      · simp only at hlt; linarith
    · rw [heq] at hww
      rcases waitLoop_cases L times fuel 1 st st2 k' hww with ⟨rfl, _, _⟩ | ⟨_, _, _, hlt⟩
      · have hm := performRequest_mono st2 resp
        rw [hst']
        exact hm
      · linarith
 
/-- C3, witness: a rollover reset at a concrete state, applied through the
theorem. -/
theorem c3_witness :
    resetCounters
        { requestsMade := 7, dataReceived := 9, errorsMade := 2, lastReset := 0 } 100 =
      { requestsMade := 0, dataReceived := 0, errorsMade := 0, lastReset := 100 } :=
  c3_rollover_resets_atomically.1
    { requestsMade := 7, dataReceived := 9, errorsMade := 2, lastReset := 0 } 100
    (by norm_num)

/-! ### Claim C4 -/

/-- C4: every fetch call that issues the HTTP request increments
`requestsMade` by exactly 1 and `dataReceived` by the measured body size,
unconditionally; on a non-200 status it additionally increments `errorsMade`
by exactly 1 and fails with an error carrying the status code, delivering no
parsed body; on a 200 it leaves `errorsMade` unchanged and returns the
parsed body. -/
theorem c4_post_request_accounting (L : ClientLimits) (fuel : Nat)
    (times : Nat → Rat) (st : ClientState) (resp : HttpResponse)
    (st' : ClientState) (r : Except Nat String)
    (h : checkLimits L fuel times st resp = some (st', r)) :
    ∃ st2 k', waitLoop L times fuel 1 (resetCounters st (times 0)) = some (st2, k') ∧
      st'.requestsMade = st2.requestsMade + 1 ∧
      st'.dataReceived = st2.dataReceived + resp.contentSize ∧
      (resp.statusCode ≠ 200 →
        st'.errorsMade = st2.errorsMade + 1 ∧ r = Except.error resp.statusCode) ∧
      (resp.statusCode = 200 →
        st'.errorsMade = st2.errorsMade ∧ r = Except.ok resp.body) := by
  unfold checkLimits at h
  rcases hww : waitLoop L times fuel 1 (resetCounters st (times 0)) with _ | ⟨st2, k'⟩
  · rw [hww] at h; simp at h
  · rw [hww] at h
    simp only [Option.map_some', Option.some.injEq] at h
    refine ⟨st2, k', rfl, ?_⟩
    have h1 : st' = (performRequest st2 resp).1 := by rw [h]
    have h2 : r = (performRequest st2 resp).2 := by rw [h]
    subst h1
    subst h2
    by_cases hs : resp.statusCode = 200
    · simp [performRequest, hs]
    · simp [performRequest, hs]

/-- C4, witness: a concrete failing (404) fetch increments the request,
data and error counters and raises the status code. -/
theorem c4_witness :
    ∃ st2 k',
      waitLoop (mkClientLimits 100 1 30) (fun _ => 0) 1 1
          (resetCounters (initClientState 0) ((fun _ => (0 : Rat)) 0)) = some (st2, k') ∧
      ({ requestsMade := 1, dataReceived := 17, errorsMade := 1,
          lastReset := 0 } : ClientState).requestsMade = st2.requestsMade + 1 ∧
      ({ requestsMade := 1, dataReceived := 17, errorsMade := 1,
          lastReset := 0 } : ClientState).dataReceived = st2.dataReceived + 17 ∧
      ((404 : Nat) ≠ 200 →
        ({ requestsMade := 1, dataReceived := 17, errorsMade := 1,
            lastReset := 0 } : ClientState).errorsMade = st2.errorsMade + 1 ∧
        (Except.error 404 : Except Nat String) = Except.error 404) ∧
      ((404 : Nat) = 200 →
        ({ requestsMade := 1, dataReceived := 17, errorsMade := 1,
            lastReset := 0 } : ClientState).errorsMade = st2.errorsMade ∧
        (Except.error 404 : Except Nat String) = Except.ok "e") := by
  have := c4_post_request_accounting (mkClientLimits 100 1 30) 1 (fun _ => 0)
    (initClientState 0) { statusCode := 404, contentSize := 17, body := "e" }
    { requestsMade := 1, dataReceived := 17, errorsMade := 1, lastReset := 0 }
    (Except.error 404)
    (by norm_num [checkLimits, waitLoop, resetCounters, overLimit,
      performRequest, initClientState, mkClientLimits])
  exact this

/-! ### Claim C9 -/

/-- C9: (i) if the three construction-time limits are strictly positive and
the clock strictly advances past the sleep (`times 1` lies strictly beyond
`times 0` plus the computed, non-negative, wait), a call that enters the wait
loop is released after a single window rollover, in the zeroed state — so
the loop terminates, and within two iterations of fuel; (ii) if any limit is
configured as 0, the loop (and hence the whole call) never returns, whatever
fuel it is given. -/
theorem c9_wait_loop_termination :
    (∀ (L : ClientLimits) (times : Nat → Rat) (st : ClientState),
      0 < L.requestLimit → 0 < L.dataLimit → 0 < L.errorLimit →
      overLimit L st = true →
      times 0 + max (timeToWait st (times 0)) 0 < times 1 →
      waitLoop L times 2 0 st =
        some ({ requestsMade := 0, dataReceived := 0, errorsMade := 0,
                lastReset := times 1 }, 2)) ∧
    (∀ (L : ClientLimits) (times : Nat → Rat) (fuel k : Nat) (st : ClientState),
      (L.requestLimit = 0 ∨ L.dataLimit = 0 ∨ L.errorLimit = 0) →
      waitLoop L times fuel k st = none) ∧
    (∀ (L : ClientLimits) (fuel : Nat) (times : Nat → Rat) (st : ClientState)
        (resp : HttpResponse),
      (L.requestLimit = 0 ∨ L.dataLimit = 0 ∨ L.errorLimit = 0) →
      checkLimits L fuel times st resp = none) := by
  have hnone : ∀ (L : ClientLimits) (times : Nat → Rat) (fuel k : Nat)
      (st : ClientState),
      (L.requestLimit = 0 ∨ L.dataLimit = 0 ∨ L.errorLimit = 0) →
      waitLoop L times fuel k st = none := by
    intro L times fuel
    induction fuel with
    | zero => intro k st _; rfl
    | succ f ih =>
      intro k st h0
      have hover : overLimit L st = true := by
        rcases h0 with h0 | h0 | h0 <;>
          simp [overLimit, h0]
      rw [waitLoop, if_pos hover]
      exact ih _ _ h0
  refine ⟨?_, hnone, ?_⟩
  · intro L times st hr hd he hover htime
    have hroll : st.lastReset + 60 < times 1 := by
      rcases le_or_lt 0 (timeToWait st (times 0)) with hw | hw
      · rw [max_eq_left hw] at htime
        unfold timeToWait at htime
        linarith
      · rw [max_eq_right hw.le] at htime
        unfold timeToWait at hw
        linarith
    have hreset : resetCounters st (times 1) =
        { requestsMade := 0, dataReceived := 0, errorsMade := 0,
          lastReset := times 1 } := by
      have : 60 < times 1 - st.lastReset := by linarith
      simp [resetCounters, this]
    rw [waitLoop, if_pos hover]
    simp only [Nat.reduceAdd]
    rw [hreset]
    rw [waitLoop]
    have hzero : overLimit L
        { requestsMade := 0, dataReceived := 0, errorsMade := 0,
          lastReset := times 1 } = false := by
      simp only [overLimit, Bool.or_eq_false_iff, decide_eq_false_iff_not, not_le]
      exact ⟨⟨hr, hd⟩, he⟩
    rw [if_neg (by rw [hzero]; exact Bool.false_ne_true)]
  · intro L fuel times st resp h0
    unfold checkLimits
    rw [hnone L times fuel 1 _ h0]
    rfl

/-- C9, witness: with all limits 1, a client that enters the loop at a
concrete over-budget state is released in the zeroed state after one
rollover. -/
theorem c9_witness :
    waitLoop (mkClientLimits 1 1 1) (fun k => 100 * k) 2 0
        { requestsMade := 3, dataReceived := 0, errorsMade := 0, lastReset := 0 } =
      some ({ requestsMade := 0, dataReceived := 0, errorsMade := 0,
              lastReset := (fun (k : Nat) => (100 : Rat) * k) 1 }, 2) :=
  c9_wait_loop_termination.1 (mkClientLimits 1 1 1) (fun k => 100 * k)
    { requestsMade := 3, dataReceived := 0, errorsMade := 0, lastReset := 0 }
    (by decide) (by decide) (by decide) (by decide)
    (by norm_num [timeToWait])

/-! ### Claim C7 -/

/-- C7, counterexample.  The claim says the single-object-to-list coercion
is applied everywhere a variable-cardinality field comes back — including
the dataset list.  But `extractDataSets` iterates its argument directly: on
a bare dataset object (a dict) it iterates the keys and crashes on `.get`,
where the coerced call would succeed with a one-element extraction. -/
theorem c7_counterexample :
    extractDataSets
        (.dict [("DatasetName", .str "X"), ("DatasetDescription", .str "D")]) = none ∧
    extractDataSets
        (.list [.dict [("DatasetName", .str "X"), ("DatasetDescription", .str "D")]]) =
      some ([.str "X"], [.str "D"]) :=
  ⟨rfl, rfl⟩

/-- C7, amended: the coercion is applied to the per-dataset parameter lists
(`extractParamInfo`) and to the per-parameter valid-input lists
(`extractValidInputs`): a bare object behaves exactly like the one-element
list around it, and a bare parameter object yields exactly one parameter.
It is not applied to the top-level dataset list: `extractDataSets` fails on
every nonempty bare object. -/
theorem c7_single_object_coercion :
    (∀ kvs : List (String × PyVal),
      extractParamInfo (.dict kvs) = extractParamInfo (.list [.dict kvs])) ∧
    (∀ kvs : List (String × PyVal), ∃ n d rq dv mv av,
      extractParamInfo (.dict kvs) = some ([n], [d], [rq], [dv], [mv], [av])) ∧
    (∀ (kvs : List (String × PyVal)) (n p : String),
      extractValidInputs (.dict kvs) n p = extractValidInputs (.list [.dict kvs]) n p) ∧
    (∀ (e : String × PyVal) (kvs : List (String × PyVal)),
      extractDataSets (.dict (e :: kvs)) = none) := by
  refine ⟨fun kvs => rfl, fun kvs => ?_, fun kvs n p => rfl, fun e kvs => rfl⟩
  exact ⟨_, _, _, _, _, _, rfl⟩

/-! ### Claim C10 -/

/-- C10: `extractValidInputs` returns normally only on a non-empty coerced
input list — every response that coerces to the empty list makes it read
`inputs[0]` and fail; and such a failure aborts the entire catalog build
(`downloadBeaDatasets` yields no partial catalog when the very first
parameter's valid-input response is an empty list, even with a second
dataset waiting). -/
theorem c10_empty_inputs_abort :
    (∀ (v : PyVal) (n p : String),
      ensureResponseIsList v = [] → extractValidInputs v n p = none) ∧
    (∀ (v : PyVal) (n p : String) r,
      extractValidInputs v n p = some r → ensureResponseIsList v ≠ []) ∧
    downloadBeaDatasets twoDataSetsResp (fun _ => singleParamResp)
      (fun _ _ => emptyParamValueResp) = none := by
  refine ⟨?_, ?_, rfl⟩
  · intro v n p h
    unfold extractValidInputs
    rw [h]
    split <;> rfl
  · intro v n p r hsome h
    unfold extractValidInputs at hsome
    rw [h] at hsome
    revert hsome
    split <;> simp

/-- C10, witness: a plain-string response coerces to the empty list, and
extraction fails on it. -/
theorem c10_witness : extractValidInputs (.str "oops") "DS1" "P1" = none :=
  c10_empty_inputs_abort.1 (.str "oops") "DS1" "P1" rfl

/-! ### Claim C8 -/

/-- Looking a dict's first key up yields its first value. -/
theorem dictGetStrict_cons_self (k : String) (v : PyVal)
    (rest : List (String × PyVal)) :
    dictGetStrict ((k, v) :: rest) k = some v := by
  simp [dictGetStrict, List.find?]

/-- Looking up a key different from the head key skips the head. -/
theorem dictGetStrict_cons_ne (k k' : String) (v : PyVal)
    (rest : List (String × PyVal)) (h : k ≠ k') :
    dictGetStrict ((k, v) :: rest) k' = dictGetStrict rest k' := by
  have hb : (k == k') = false := beq_eq_false_iff_ne.mpr h
  simp [dictGetStrict, List.find?, hb]

/-- C8, counterexample.  On the specification's own example entry the code
does build the table-plus-three-ranges record with the synthesized
description — but under the keys `"Annual year Range"`,
`"Quarterly Year Range"` and `"Monthly Year Range"` (with spaces, lower-case
`year` in the first), not the claimed `AnnualYearRange`,
`QuarterlyYearRange`, `MonthlyYearRange`. -/
theorem c8_counterexample :
    extractValidInputs yearExampleResponse "NIPA" "Year" =
      some ([.dict [("TableName", .str "T1"),
              ("Annual year Range", .str "1990-2020"),
              ("Quarterly Year Range", .str "1999-2020"),
              ("Monthly Year Range", .str "2015-2020")]],
            [.str "Year ranges for annual, quarterly, and monthly data from table: T1"]) ∧
    (PyVal.dict [("TableName", .str "T1"),
        ("Annual year Range", .str "1990-2020"),
        ("Quarterly Year Range", .str "1999-2020"),
        ("Monthly Year Range", .str "2015-2020")]) ≠
      (PyVal.dict [("TableName", .str "T1"),
        ("AnnualYearRange", .str "1990-2020"),
        ("QuarterlyYearRange", .str "1999-2020"),
        ("MonthlyYearRange", .str "2015-2020")]) := by
  exact ⟨rfl, by simp⟩

/-- C8, amended: for the three special datasets' `"Year"` parameter, each
response entry is assembled into the record
`{TableName, "Annual year Range": "start-end", "Quarterly Year Range":
"start-end", "Monthly Year Range": "start-end"}` from the entry's table
identifier and the three (start, end) year-range pairs in key order, with
the synthesized description
`"Year ranges for annual, quarterly, and monthly data from table: <TableName>"`. -/
theorem c8_year_records (name : String)
    (hname : name ∈ (["NIPA", "NIUnderlyingDetail", "FixedAssets"] : List String))
    (k0 k1 k2 k3 k4 k5 k6 : String)
    (hk : ([k0, k1, k2, k3, k4, k5, k6] : List String).Nodup)
    (es : List YearEntryRaw) (hne : es ≠ []) :
    extractValidInputs (.list (es.map (yearEntryDict k0 k1 k2 k3 k4 k5 k6)))
        name "Year" =
      some (es.map yearEntryRecord,
        es.map (fun e => .str (yearEntryDescription e))) := by
  simp only [List.nodup_cons, List.mem_cons, List.mem_singleton,
    List.not_mem_nil, or_false, not_or, List.nodup_nil, and_true,
    not_false_eq_true] at hk
  obtain ⟨⟨h01, h02, h03, h04, h05, h06⟩, ⟨h12, h13, h14, h15, h16⟩,
    ⟨h23, h24, h25, h26⟩, ⟨h34, h35, h36⟩, ⟨h45, h46⟩, h56⟩ := hk
  have hrows : ∀ (l : List YearEntryRaw),
      yearRows k0 k1 k2 k3 k4 k5 k6 (l.map (yearEntryDict k0 k1 k2 k3 k4 k5 k6)) =
        some (l.map yearEntryRecord,
          l.map (fun e => .str (yearEntryDescription e))) := by
    intro l
    induction l with
    | nil => rfl
    | cons e l ih =>
      simp only [List.map_cons, yearEntryDict, yearRows]
      rw [dictGetStrict_cons_self]
      rw [dictGetStrict_cons_ne _ _ _ _ h01, dictGetStrict_cons_self]
      rw [dictGetStrict_cons_ne _ _ _ _ h02, dictGetStrict_cons_ne _ _ _ _ h12,
        dictGetStrict_cons_self]
      rw [dictGetStrict_cons_ne _ _ _ _ h03, dictGetStrict_cons_ne _ _ _ _ h13,
        dictGetStrict_cons_ne _ _ _ _ h23, dictGetStrict_cons_self]
      rw [dictGetStrict_cons_ne _ _ _ _ h04, dictGetStrict_cons_ne _ _ _ _ h14,
        dictGetStrict_cons_ne _ _ _ _ h24, dictGetStrict_cons_ne _ _ _ _ h34,
        dictGetStrict_cons_self]
      rw [dictGetStrict_cons_ne _ _ _ _ h05, dictGetStrict_cons_ne _ _ _ _ h15,
        dictGetStrict_cons_ne _ _ _ _ h25, dictGetStrict_cons_ne _ _ _ _ h35,
        dictGetStrict_cons_ne _ _ _ _ h45, dictGetStrict_cons_self]
      rw [dictGetStrict_cons_ne _ _ _ _ h06, dictGetStrict_cons_ne _ _ _ _ h16,
        dictGetStrict_cons_ne _ _ _ _ h26, dictGetStrict_cons_ne _ _ _ _ h36,
        dictGetStrict_cons_ne _ _ _ _ h46, dictGetStrict_cons_ne _ _ _ _ h56,
        dictGetStrict_cons_self]
      simp [Option.some_bind, ih, yearEntryRecord, yearEntryDescription]
  cases es with
  | nil => cases hne rfl
  | cons e es =>
    simp only [extractValidInputs, ensureResponseIsList, List.map_cons,
      yearEntryDict, and_true]
    rw [if_pos hname]
    have := hrows (e :: es)
    simp only [List.map_cons, yearEntryDict] at this
    exact this

/-- C8, witness: the amended assembly on the specification's example
response, for dataset `"NIPA"`. -/
theorem c8_witness :
    extractValidInputs
        (.list ([yearExampleEntry].map (yearEntryDict "Table" "A1" "A2" "Q1" "Q2" "M1" "M2")))
        "NIPA" "Year" =
      some ([yearExampleEntry].map yearEntryRecord,
        [yearExampleEntry].map (fun e => .str (yearEntryDescription e))) :=
  c8_year_records "NIPA" (by decide) "Table" "A1" "A2" "Q1" "Q2" "M1" "M2"
    (by decide) [yearExampleEntry] (by simp)

/-! ### Claim C5 -/

/-- C5, counterexample.  The claim says a year difference (in either
direction) discards the cache.  The code only checks
`currentDate.year > fileDate.year`: a cache file dated in a *later* year
than the current date (stored `2027-01-01`, now `2026-01-15` — years
differ, quarters both 1) is loaded from disk with no rebuild: the result
carries the parsed file content and the no-network flag, not the builder's
catalog. -/
theorem c5_counterexample :
    readBeaDataSets ["2027-01-01"] { year := 2026, month := 1, day := 15 }
        [mkBeaDataSet "D" "d"] =
      some ([], false, ["2027-01-01"]) ∧
    (2027 : Nat) ≠ 2026 ∧
    getFiscalQuarter { year := 2027, month := 1, day := 1 } =
      getFiscalQuarter { year := 2026, month := 1, day := 15 } := by
  refine ⟨?_, by decide, by decide⟩
  unfold readBeaDataSets
  rw [show parseDate (pyStrip ((["2027-01-01"] : List String).getD 0 "")) =
      some { year := 2027, month := 1, day := 1 } from rfl]
  dsimp only
  rw [if_neg (by decide)]
  simp [parseDataSetsLines]

/-- C5, amended: when the stored date's quarter and year both match the
current date's, `load` performs zero network requests and deserializes the
stored records directly; when the *current year is strictly greater* than
the stored year, or the quarters differ, it discards the cache, invokes the
builder, persists the result and returns it. -/
theorem c5_quarter_cache_freshness (fileLines : List String)
    (fileDate currentDate : PyDate) (downloaded : List BeaDataSet)
    (hdate : parseDate (pyStrip (fileLines.getD 0 "")) = some fileDate) :
    ((getFiscalQuarter currentDate = getFiscalQuarter fileDate ∧
        currentDate.year = fileDate.year) →
      readBeaDataSets fileLines currentDate downloaded =
        (parseDataSetsLines (fileLines.drop 1)).map (fun ds => (ds, false, fileLines))) ∧
    ((fileDate.year < currentDate.year ∨
        getFiscalQuarter currentDate ≠ getFiscalQuarter fileDate) →
      readBeaDataSets fileLines currentDate downloaded =
        some (downloaded, true, writeDataSetsToFile downloaded currentDate)) := by
  constructor
  · rintro ⟨hq, hy⟩
    unfold readBeaDataSets
    rw [hdate]
    dsimp only
    rw [if_neg]
    push_neg
    exact ⟨by omega, by rw [hq]⟩
  · intro h
    unfold readBeaDataSets
    rw [hdate]
    dsimp only
    rw [if_pos]
    exact h

/-- C5, witness: a cache file from the same quarter and year is read with
no network access. -/
theorem c5_witness :
    readBeaDataSets ["2026-02-03"] { year := 2026, month := 1, day := 15 } [] =
      (parseDataSetsLines ((["2026-02-03"] : List String).drop 1)).map
        (fun ds => (ds, false, ["2026-02-03"])) :=
  (c5_quarter_cache_freshness ["2026-02-03"] { year := 2026, month := 2, day := 3 }
    { year := 2026, month := 1, day := 15 } [] rfl).1 ⟨rfl, rfl⟩

/-! ### Round-trip of the literal serialization (towards claim C6) -/

/-- `hexCharVal` inverts `hexDigitChar` on hex-digit values. -/
theorem hexCharVal_hexDigitChar (v : Nat) (hv : v < 16) :
    hexCharVal (hexDigitChar v) = some v := by
  interval_cases v <;> rfl

/-- The quote `repr` picks is one of the two quote characters. -/
theorem pyQuote_cases (s : String) : pyQuote s = '\'' ∨ pyQuote s = '"' := by
  unfold pyQuote
  split
  · exact Or.inr rfl
  · exact Or.inl rfl

/-- Parsing consumes one escaped character and accumulates exactly the
character `repr` escaped. -/
theorem parseStrBody_escapeChar (q : Char) (hq : q = '\'' ∨ q = '"')
    (c : Char) (tail acc : List Char) :
    parseStrBody q (escapeChar q c ++ tail) acc = parseStrBody q tail (acc ++ [c]) := by
  have hqbs : q ≠ '\\' := by rcases hq with rfl | rfl <;> decide
  by_cases h1 : c = '\\'
  · subst h1
    rcases hq with rfl | rfl <;> exact rfl
  · by_cases h2 : c = q
    · subst h2
      rcases hq with rfl | rfl <;> exact rfl
    · by_cases h3 : c = '\n'
      · subst h3
        rcases hq with rfl | rfl <;> exact rfl
      · by_cases h4 : c = '\r'
        · subst h4
          rcases hq with rfl | rfl <;> exact rfl
        · by_cases h5 : c = '\t'
          · subst h5
            rcases hq with rfl | rfl <;> exact rfl
          · by_cases h6 : c.toNat < 32 ∨ c.toNat = 127
            · have hv1 : c.toNat / 16 < 16 := by omega
              have hv2 : c.toNat % 16 < 16 := Nat.mod_lt _ (by norm_num)
              have hchar : Char.ofNat (16 * (c.toNat / 16) + c.toNat % 16) = c := by
                have h16 : 16 * (c.toNat / 16) + c.toNat % 16 = c.toNat := by omega
                rw [h16, Char.ofNat_toNat]
              have hrepr : escapeChar q c =
                  ['\\', 'x', hexDigitChar (c.toNat / 16), hexDigitChar (c.toNat % 16)] := by
                simp [escapeChar, h1, h2, h3, h4, h5, h6]
              rw [hrepr]
              have hstep : ∀ t a, parseStrBody q
                  ('\\' :: 'x' :: hexDigitChar (c.toNat / 16) ::
                    hexDigitChar (c.toNat % 16) :: t) a =
                  parseStrBody q t (a ++ [c]) := by
                intro t a
                rcases hq with rfl | rfl <;>
                · show (match hexCharVal (hexDigitChar (c.toNat / 16)),
                        hexCharVal (hexDigitChar (c.toNat % 16)) with
                    | some v1, some v2 =>
                        parseStrBody _ t (a ++ [Char.ofNat (16 * v1 + v2)])
                    | _, _ => none) = parseStrBody _ t (a ++ [c])
                  rw [hexCharVal_hexDigitChar _ hv1, hexCharVal_hexDigitChar _ hv2]
                  dsimp only
                  rw [hchar]
              exact hstep tail acc
            · have hrepr : escapeChar q c = [c] := by
                simp [escapeChar, h1, h2, h3, h4, h5, h6]
              rw [hrepr]
              show parseStrBody q (c :: tail) acc = _
              rw [parseStrBody]
              rw [if_neg h2, if_neg h1]

/-- Parsing the escaped rendering of a character list up to the closing
quote recovers exactly those characters. -/
theorem parseStrBody_flatMap (q : Char) (hq : q = '\'' ∨ q = '"')
    (l : List Char) :
    ∀ (acc rest : List Char),
      parseStrBody q (l.flatMap (escapeChar q) ++ q :: rest) acc =
        some (String.mk (acc ++ l), rest) := by
  induction l with
  | nil =>
    intro acc rest
    show parseStrBody q (q :: rest) acc = _
    rw [parseStrBody, if_pos rfl, List.append_nil]
  | cons c l ih =>
    intro acc rest
    rw [List.flatMap_cons, List.append_assoc, parseStrBody_escapeChar q hq, ih]
    simp

/-- The first character of a rendered value is a quote, `T`, `F`, `[` or
`{`. -/
theorem pyReprChars_head (v : PyVal) :
    ∃ c t, pyReprChars v = c :: t ∧
      (c = '\'' ∨ c = '"' ∨ c = 'T' ∨ c = 'F' ∨ c = '[' ∨ c = '{') := by
  cases v with
  | str s =>
    refine ⟨pyQuote s, _, rfl, ?_⟩
    rcases pyQuote_cases s with h | h <;> simp [h]
  | bool b => cases b <;> exact ⟨_, _, rfl, by simp⟩
  | list xs => exact ⟨'[', _, rfl, by simp⟩
  | dict kvs => exact ⟨'{', _, rfl, by simp⟩

/-- The last character of a rendered value is a quote, `e`, `]` or `}`. -/
theorem pyReprChars_getLast (v : PyVal) :
    ∃ c, (pyReprChars v).getLast? = some c ∧
      (c = '\'' ∨ c = '"' ∨ c = 'e' ∨ c = ']' ∨ c = '}') := by
  cases v with
  | str s =>
    refine ⟨pyQuote s, ?_, ?_⟩
    · show ((pyQuote s :: s.data.flatMap (escapeChar (pyQuote s))) ++
        [pyQuote s]).getLast? = some (pyQuote s)
      rw [List.getLast?_concat]
    · rcases pyQuote_cases s with h | h <;> simp [h]
  | bool b => cases b <;> exact ⟨'e', rfl, by simp⟩
  | list xs =>
    refine ⟨']', ?_, by simp⟩
    show (('[' :: pyReprListChars xs) ++ [']']).getLast? = some ']'
    rw [List.getLast?_concat]
  | dict kvs =>
    refine ⟨'}', ?_, by simp⟩
    show (('{' :: pyReprDictChars kvs) ++ ['}']).getLast? = some '}'
    rw [List.getLast?_concat]

/-- One-step unfolding of `parsePyVal` at a single quote. -/
theorem parsePyVal_quote1 (f : Nat) (cs : List Char) :
    parsePyVal (f + 1) ('\'' :: cs) =
      (parseStrBody '\'' cs []).map (fun p => (PyVal.str p.1, p.2)) := rfl

/-- One-step unfolding of `parsePyVal` at a double quote. -/
theorem parsePyVal_quote2 (f : Nat) (cs : List Char) :
    parsePyVal (f + 1) ('"' :: cs) =
      (parseStrBody '"' cs []).map (fun p => (PyVal.str p.1, p.2)) := rfl

/-- One-step unfolding of `parsePyVal` at `[`. -/
theorem parsePyVal_lbracket (f : Nat) (cs : List Char) :
    parsePyVal (f + 1) ('[' :: cs) =
      if cs.head? = some ']' then some (.list [], cs.tail)
      else (parseListItems f cs).map (fun p => (PyVal.list p.1, p.2)) := rfl

/-- One-step unfolding of `parsePyVal` at `{`. -/
theorem parsePyVal_lbrace (f : Nat) (cs : List Char) :
    parsePyVal (f + 1) ('{' :: cs) =
      if cs.head? = some '}' then some (.dict [], cs.tail)
      else (parseDictItems f cs).map (fun p => (PyVal.dict p.1, p.2)) := rfl

/-- One-step unfolding of `parseListItems`. -/
theorem parseListItems_succ (f : Nat) (cs : List Char) :
    parseListItems (f + 1) cs =
      ((parsePyVal f cs).bind fun p =>
        if p.2.head? = some ']' then some ([p.1], p.2.tail)
        else if p.2.take 2 = [',', ' '] then
          (parseListItems f (p.2.drop 2)).bind fun q => some (p.1 :: q.1, q.2)
        else none) := rfl

/-- One-step unfolding of `parseDictItems`. -/
theorem parseDictItems_succ (f : Nat) (cs : List Char) :
    parseDictItems (f + 1) cs =
      (((if cs.head? = some '\'' then parseStrBody '\'' cs.tail []
         else if cs.head? = some '"' then parseStrBody '"' cs.tail []
         else none) :
          Option (String × List Char)).bind fun pk =>
        if pk.2.take 2 = [':', ' '] then
          (parsePyVal f (pk.2.drop 2)).bind fun pv =>
            if pv.2.head? = some '}' then some ([(pk.1, pv.1)], pv.2.tail)
            else if pv.2.take 2 = [',', ' '] then
              (parseDictItems f (pv.2.drop 2)).bind fun pr =>
                some ((pk.1, pv.1) :: pr.1, pr.2)
            else none
        else none) := rfl

/-- Every value needs at least one unit of fuel. -/
theorem pyFuel_pos (v : PyVal) : 1 ≤ pyFuel v := by
  cases v with
  | str s => simp [pyFuel]
  | bool b => simp [pyFuel]
  | list xs => cases xs <;> simp [pyFuel]
  | dict kvs => cases kvs <;> simp [pyFuel]

/-- Item lists need at least one unit of fuel. -/
theorem pyFuelItems_pos (xs : List PyVal) : 1 ≤ pyFuelItems xs := by
  cases xs <;> simp [pyFuelItems] <;> omega

/-- Dict item lists need at least one unit of fuel. -/
theorem pyFuelDictItems_pos (kvs : List (String × PyVal)) :
    1 ≤ pyFuelDictItems kvs := by
  cases kvs with
  | nil => simp [pyFuelDictItems]
  | cons e kvs => rcases e with ⟨k, v⟩; simp [pyFuelDictItems]; omega

/-- The rendering of a nonempty item list starts like the rendering of its
first element. -/
theorem pyReprListChars_head (x : PyVal) (xs : List PyVal) :
    ∃ c t, pyReprListChars (x :: xs) = c :: t ∧
      (c = '\'' ∨ c = '"' ∨ c = 'T' ∨ c = 'F' ∨ c = '[' ∨ c = '{') := by
  obtain ⟨c, t, hct, hc⟩ := pyReprChars_head x
  cases xs with
  | nil =>
    exact ⟨c, t, by rw [show pyReprListChars [x] = pyReprChars x from rfl, hct], hc⟩
  | cons y ys =>
    refine ⟨c, t ++ ',' :: ' ' :: pyReprListChars (y :: ys), ?_, hc⟩
    rw [show pyReprListChars (x :: y :: ys) =
      pyReprChars x ++ ',' :: ' ' :: pyReprListChars (y :: ys) from rfl, hct]
    rfl

/-- The rendering of a nonempty dict item list starts with the first key's
quote. -/
theorem pyReprDictChars_head (k : String) (v : PyVal)
    (kvs : List (String × PyVal)) :
    ∃ t, pyReprDictChars ((k, v) :: kvs) = pyQuote k :: t := by
  cases kvs with
  | nil => exact ⟨_, rfl⟩
  | cons e kvs => exact ⟨_, rfl⟩

/-- A comma is not a closing bracket. -/
theorem char_comma_ne_rbracket : (',' = ']') = False := by decide

/-- A comma is not a closing brace. -/
theorem char_comma_ne_rbrace : (',' = '}') = False := by decide

/-- The two quote characters differ. -/
theorem char_dquote_ne_squote : ('"' = '\'') = False := by decide

/-- `take 2` of a list with two explicit heads. -/
theorem take2_cons_cons (a b : Char) (l : List Char) : (a :: b :: l).take 2 = [a, b] := rfl

/-- `drop 2` of a list with two explicit heads. -/
theorem drop2_cons_cons (a b : Char) (l : List Char) : (a :: b :: l).drop 2 = l := rfl

/-- Round trip of the literal grammar: parsing the rendering of any value —
or of the item lists of a list or dict literal, up to the closing bracket —
with enough fuel succeeds and returns exactly that value, leaving the rest
of the input untouched.  (`n` only drives the induction.) -/
theorem parse_repr_strong (n : Nat) :
    (∀ v : PyVal, pyFuel v ≤ n →
      ∀ f, pyFuel v ≤ f → ∀ rest : List Char,
        parsePyVal f (pyReprChars v ++ rest) = some (v, rest)) ∧
    (∀ xs : List PyVal, xs ≠ [] → pyFuelItems xs ≤ n →
      ∀ f, pyFuelItems xs ≤ f → ∀ rest : List Char,
        parseListItems f (pyReprListChars xs ++ ']' :: rest) = some (xs, rest)) ∧
    (∀ kvs : List (String × PyVal), kvs ≠ [] → pyFuelDictItems kvs ≤ n →
      ∀ f, pyFuelDictItems kvs ≤ f → ∀ rest : List Char,
        parseDictItems f (pyReprDictChars kvs ++ '}' :: rest) = some (kvs, rest)) := by
  induction n with
  | zero =>
    refine ⟨fun v hv => absurd (le_trans (pyFuel_pos v) hv) (by norm_num),
      fun xs _ hv => absurd (le_trans (pyFuelItems_pos xs) hv) (by norm_num),
      fun kvs _ hv => absurd (le_trans (pyFuelDictItems_pos kvs) hv) (by norm_num)⟩
  | succ n ih =>
    obtain ⟨ihA, ihB, ihC⟩ := ih
    refine ⟨?_, ?_, ?_⟩
    · -- values
      intro v hn f hf rest
      obtain ⟨f', rfl⟩ : ∃ f', f = f' + 1 :=
        ⟨f - 1, by have := pyFuel_pos v; omega⟩
      cases v with
      | str s =>
        show parsePyVal (f' + 1) (reprStrChars s ++ rest) = _
        rw [reprStrChars]
        rcases pyQuote_cases s with hq | hq <;> rw [hq] <;>
          simp only [List.cons_append, List.append_assoc, List.singleton_append, List.nil_append]
        · rw [parsePyVal_quote1, parseStrBody_flatMap '\'' (Or.inl rfl) s.data [] rest]
          rfl
        · rw [parsePyVal_quote2, parseStrBody_flatMap '"' (Or.inr rfl) s.data [] rest]
          rfl
      | bool b => cases b <;> exact rfl
      | list xs =>
        cases xs with
        | nil => exact rfl
        | cons x xs =>
          have hfi : pyFuelItems (x :: xs) ≤ n ∧ pyFuelItems (x :: xs) ≤ f' := by
            rw [show pyFuel (.list (x :: xs)) = 1 + pyFuelItems (x :: xs) from rfl]
              at hn hf
            omega
          show parsePyVal (f' + 1)
            (('[' :: pyReprListChars (x :: xs) ++ [']']) ++ rest) = _
          simp only [List.cons_append, List.append_assoc, List.singleton_append, List.nil_append]
          rw [parsePyVal_lbracket]
          obtain ⟨c, t, hct, hc⟩ := pyReprListChars_head x xs
          rw [hct, List.cons_append, List.head?_cons,
            if_neg (by rcases hc with rfl | rfl | rfl | rfl | rfl | rfl <;> simp),
            ← List.cons_append, ← hct,
            ihB (x :: xs) (by simp) hfi.1 f' hfi.2 rest]
          rfl
      | dict kvs =>
        cases kvs with
        | nil => exact rfl
        | cons e kvs =>
          rcases e with ⟨k, v⟩
          have hfd : pyFuelDictItems ((k, v) :: kvs) ≤ n ∧
              pyFuelDictItems ((k, v) :: kvs) ≤ f' := by
            rw [show pyFuel (.dict ((k, v) :: kvs)) =
              1 + pyFuelDictItems ((k, v) :: kvs) from rfl] at hn hf
            omega
          show parsePyVal (f' + 1)
            (('{' :: pyReprDictChars ((k, v) :: kvs) ++ ['}']) ++ rest) = _
          simp only [List.cons_append, List.append_assoc, List.singleton_append, List.nil_append]
          rw [parsePyVal_lbrace]
          obtain ⟨t, hct⟩ := pyReprDictChars_head k v kvs
          rw [hct, List.cons_append, List.head?_cons,
            if_neg (by rcases pyQuote_cases k with hq | hq <;> rw [hq] <;> simp),
            ← List.cons_append, ← hct,
            ihC ((k, v) :: kvs) (by simp) hfd.1 f' hfd.2 rest]
          rfl
    · -- list items
      intro xs hne hn f hf rest
      obtain ⟨f', rfl⟩ : ∃ f', f = f' + 1 :=
        ⟨f - 1, by have := pyFuelItems_pos xs; omega⟩
      cases xs with
      | nil => cases hne rfl
      | cons x xs =>
        have hb : pyFuel x ≤ n ∧ pyFuel x ≤ f' ∧
            pyFuelItems xs ≤ n ∧ pyFuelItems xs ≤ f' := by
          rw [show pyFuelItems (x :: xs) = 1 + pyFuel x + pyFuelItems xs from rfl]
            at hn hf
          have h1 := pyFuelItems_pos xs
          have h2 := pyFuel_pos x
          omega
        rw [parseListItems_succ]
        cases xs with
        | nil =>
          rw [show pyReprListChars [x] = pyReprChars x from rfl,
            ihA x hb.1 f' hb.2.1 (']' :: rest)]
          try simp only [Option.some_bind, List.head?_cons, List.tail_cons, Option.some.injEq,
              take2_cons_cons, drop2_cons_cons, eq_self_iff_true, if_true, if_false,
              char_comma_ne_rbracket, char_comma_ne_rbrace, char_dquote_ne_squote,
              List.nil_append, List.cons_append, List.append_assoc]
          try rfl
        | cons y ys =>
          rw [show pyReprListChars (x :: y :: ys) =
            pyReprChars x ++ ',' :: ' ' :: pyReprListChars (y :: ys) from rfl,
            List.append_assoc, ihA x hb.1 f' hb.2.1 _]
          try simp only [Option.some_bind, List.head?_cons, List.tail_cons, Option.some.injEq,
              take2_cons_cons, drop2_cons_cons, eq_self_iff_true, if_true, if_false,
              char_comma_ne_rbracket, char_comma_ne_rbrace, char_dquote_ne_squote,
              List.nil_append, List.cons_append, List.append_assoc]
          try rfl
          rw [ihB (y :: ys) (by simp) hb.2.2.1 f' hb.2.2.2 rest]
          try simp only [Option.some_bind, List.head?_cons, List.tail_cons, Option.some.injEq,
              take2_cons_cons, drop2_cons_cons, eq_self_iff_true, if_true, if_false,
              char_comma_ne_rbracket, char_comma_ne_rbrace, char_dquote_ne_squote,
              List.nil_append, List.cons_append, List.append_assoc]
          try rfl
    · -- dict items
      intro kvs hne hn f hf rest
      obtain ⟨f', rfl⟩ : ∃ f', f = f' + 1 :=
        ⟨f - 1, by have := pyFuelDictItems_pos kvs; omega⟩
      cases kvs with
      | nil => cases hne rfl
      | cons e kvs =>
        rcases e with ⟨k, v⟩
        have hb : pyFuel v ≤ n ∧ pyFuel v ≤ f' ∧
            pyFuelDictItems kvs ≤ n ∧ pyFuelDictItems kvs ≤ f' := by
          rw [show pyFuelDictItems ((k, v) :: kvs) =
            1 + pyFuel v + pyFuelDictItems kvs from rfl] at hn hf
          have h1 := pyFuelDictItems_pos kvs
          have h2 := pyFuel_pos v
          omega
        rw [parseDictItems_succ]
        cases kvs with
        | nil =>
          rw [show pyReprDictChars [(k, v)] =
            reprStrChars k ++ ':' :: ' ' :: pyReprChars v from rfl]
          rw [reprStrChars]
          rcases pyQuote_cases k with hq | hq <;> rw [hq] <;>
            simp only [List.cons_append, List.append_assoc, List.singleton_append, List.nil_append]
          · try simp only [Option.some_bind, List.head?_cons, List.tail_cons, Option.some.injEq,
              take2_cons_cons, drop2_cons_cons, eq_self_iff_true, if_true, if_false,
              char_comma_ne_rbracket, char_comma_ne_rbrace, char_dquote_ne_squote,
              List.nil_append, List.cons_append, List.append_assoc]
            try rfl
            rw [parseStrBody_flatMap '\'' (Or.inl rfl) k.data []]
            try simp only [Option.some_bind, List.head?_cons, List.tail_cons, Option.some.injEq,
              take2_cons_cons, drop2_cons_cons, eq_self_iff_true, if_true, if_false,
              char_comma_ne_rbracket, char_comma_ne_rbrace, char_dquote_ne_squote,
              List.nil_append, List.cons_append, List.append_assoc]
            try rfl
            rw [ihA v hb.1 f' hb.2.1 ('}' :: rest)]
            try simp only [Option.some_bind, List.head?_cons, List.tail_cons, Option.some.injEq,
              take2_cons_cons, drop2_cons_cons, eq_self_iff_true, if_true, if_false,
              char_comma_ne_rbracket, char_comma_ne_rbrace, char_dquote_ne_squote,
              List.nil_append, List.cons_append, List.append_assoc]
            try rfl
          · try simp only [Option.some_bind, List.head?_cons, List.tail_cons, Option.some.injEq,
              take2_cons_cons, drop2_cons_cons, eq_self_iff_true, if_true, if_false,
              char_comma_ne_rbracket, char_comma_ne_rbrace, char_dquote_ne_squote,
              List.nil_append, List.cons_append, List.append_assoc]
            try rfl
            rw [parseStrBody_flatMap '"' (Or.inr rfl) k.data []]
            try simp only [Option.some_bind, List.head?_cons, List.tail_cons, Option.some.injEq,
              take2_cons_cons, drop2_cons_cons, eq_self_iff_true, if_true, if_false,
              char_comma_ne_rbracket, char_comma_ne_rbrace, char_dquote_ne_squote,
              List.nil_append, List.cons_append, List.append_assoc]
            try rfl
            rw [ihA v hb.1 f' hb.2.1 ('}' :: rest)]
            try simp only [Option.some_bind, List.head?_cons, List.tail_cons, Option.some.injEq,
              take2_cons_cons, drop2_cons_cons, eq_self_iff_true, if_true, if_false,
              char_comma_ne_rbracket, char_comma_ne_rbrace, char_dquote_ne_squote,
              List.nil_append, List.cons_append, List.append_assoc]
            try rfl
        | cons e2 kvs2 =>
          rw [show pyReprDictChars ((k, v) :: e2 :: kvs2) =
            reprStrChars k ++ ':' :: ' ' :: pyReprChars v ++
              ',' :: ' ' :: pyReprDictChars (e2 :: kvs2) from rfl]
          rw [reprStrChars]
          rcases pyQuote_cases k with hq | hq <;> rw [hq] <;>
            simp only [List.cons_append, List.append_assoc, List.singleton_append, List.nil_append]
          · try simp only [Option.some_bind, List.head?_cons, List.tail_cons, Option.some.injEq,
              take2_cons_cons, drop2_cons_cons, eq_self_iff_true, if_true, if_false,
              char_comma_ne_rbracket, char_comma_ne_rbrace, char_dquote_ne_squote,
              List.nil_append, List.cons_append, List.append_assoc]
            try rfl
            rw [parseStrBody_flatMap '\'' (Or.inl rfl) k.data []]
            try simp only [Option.some_bind, List.head?_cons, List.tail_cons, Option.some.injEq,
              take2_cons_cons, drop2_cons_cons, eq_self_iff_true, if_true, if_false,
              char_comma_ne_rbracket, char_comma_ne_rbrace, char_dquote_ne_squote,
              List.nil_append, List.cons_append, List.append_assoc]
            try rfl
            rw [ihA v hb.1 f' hb.2.1 _]
            try simp only [Option.some_bind, List.head?_cons, List.tail_cons, Option.some.injEq,
              take2_cons_cons, drop2_cons_cons, eq_self_iff_true, if_true, if_false,
              char_comma_ne_rbracket, char_comma_ne_rbrace, char_dquote_ne_squote,
              List.nil_append, List.cons_append, List.append_assoc]
            try rfl
            rw [ihC (e2 :: kvs2) (by simp) hb.2.2.1 f' hb.2.2.2 rest]
            try simp only [Option.some_bind, List.head?_cons, List.tail_cons, Option.some.injEq,
              take2_cons_cons, drop2_cons_cons, eq_self_iff_true, if_true, if_false,
              char_comma_ne_rbracket, char_comma_ne_rbrace, char_dquote_ne_squote,
              List.nil_append, List.cons_append, List.append_assoc]
            try rfl
          · try simp only [Option.some_bind, List.head?_cons, List.tail_cons, Option.some.injEq,
              take2_cons_cons, drop2_cons_cons, eq_self_iff_true, if_true, if_false,
              char_comma_ne_rbracket, char_comma_ne_rbrace, char_dquote_ne_squote,
              List.nil_append, List.cons_append, List.append_assoc]
            try rfl
            rw [parseStrBody_flatMap '"' (Or.inr rfl) k.data []]
            try simp only [Option.some_bind, List.head?_cons, List.tail_cons, Option.some.injEq,
              take2_cons_cons, drop2_cons_cons, eq_self_iff_true, if_true, if_false,
              char_comma_ne_rbracket, char_comma_ne_rbrace, char_dquote_ne_squote,
              List.nil_append, List.cons_append, List.append_assoc]
            try rfl
            rw [ihA v hb.1 f' hb.2.1 _]
            try simp only [Option.some_bind, List.head?_cons, List.tail_cons, Option.some.injEq,
              take2_cons_cons, drop2_cons_cons, eq_self_iff_true, if_true, if_false,
              char_comma_ne_rbracket, char_comma_ne_rbrace, char_dquote_ne_squote,
              List.nil_append, List.cons_append, List.append_assoc]
            try rfl
            rw [ihC (e2 :: kvs2) (by simp) hb.2.2.1 f' hb.2.2.2 rest]
            try simp only [Option.some_bind, List.head?_cons, List.tail_cons, Option.some.injEq,
              take2_cons_cons, drop2_cons_cons, eq_self_iff_true, if_true, if_false,
              char_comma_ne_rbracket, char_comma_ne_rbrace, char_dquote_ne_squote,
              List.nil_append, List.cons_append, List.append_assoc]
            try rfl

/-- The fuel the parser needs is covered by twice the rendering's length. -/
theorem pyFuel_le_strong (n : Nat) :
    (∀ v : PyVal, pyFuel v ≤ n → pyFuel v ≤ 2 * (pyReprChars v).length) ∧
    (∀ xs : List PyVal, pyFuelItems xs ≤ n →
      pyFuelItems xs ≤ 2 * (pyReprListChars xs).length + 2) ∧
    (∀ kvs : List (String × PyVal), pyFuelDictItems kvs ≤ n →
      pyFuelDictItems kvs ≤ 2 * (pyReprDictChars kvs).length + 2) := by
  induction n with
  | zero =>
    refine ⟨fun v hv => absurd (le_trans (pyFuel_pos v) hv) (by norm_num),
      fun xs hv => absurd (le_trans (pyFuelItems_pos xs) hv) (by norm_num),
      fun kvs hv => absurd (le_trans (pyFuelDictItems_pos kvs) hv) (by norm_num)⟩
  | succ n ih =>
    obtain ⟨ihA, ihB, ihC⟩ := ih
    refine ⟨?_, ?_, ?_⟩
    · intro v hn
      cases v with
      | str s =>
        show pyFuel (.str s) ≤ 2 * (reprStrChars s).length
        rw [reprStrChars]
        simp only [pyFuel, List.length_cons, List.length_append]
        omega
      | bool b => cases b <;> simp [pyFuel, pyReprChars]
      | list xs =>
        cases xs with
        | nil => simp [pyFuel, pyReprChars, pyReprListChars]
        | cons x xs =>
          have h1 : pyFuelItems (x :: xs) ≤ n := by
            rw [show pyFuel (.list (x :: xs)) = 1 + pyFuelItems (x :: xs) from rfl] at hn
            omega
          have h2 := ihB (x :: xs) h1
          rw [show pyFuel (.list (x :: xs)) = 1 + pyFuelItems (x :: xs) from rfl,
            show pyReprChars (.list (x :: xs)) =
              '[' :: pyReprListChars (x :: xs) ++ [']'] from rfl]
          simp only [List.length_cons, List.length_append, List.length_singleton]
          omega
      | dict kvs =>
        cases kvs with
        | nil => simp [pyFuel, pyReprChars, pyReprDictChars]
        | cons e kvs =>
          rcases e with ⟨k, v⟩
          have h1 : pyFuelDictItems ((k, v) :: kvs) ≤ n := by
            rw [show pyFuel (.dict ((k, v) :: kvs)) =
              1 + pyFuelDictItems ((k, v) :: kvs) from rfl] at hn
            omega
          have h2 := ihC ((k, v) :: kvs) h1
          rw [show pyFuel (.dict ((k, v) :: kvs)) =
              1 + pyFuelDictItems ((k, v) :: kvs) from rfl,
            show pyReprChars (.dict ((k, v) :: kvs)) =
              '{' :: pyReprDictChars ((k, v) :: kvs) ++ ['}'] from rfl]
          simp only [List.length_cons, List.length_append, List.length_singleton]
          omega
    · intro xs hn
      cases xs with
      | nil => simp [pyFuelItems]
      | cons x xs =>
        have hfx : pyFuel x ≤ n := by
          rw [show pyFuelItems (x :: xs) = 1 + pyFuel x + pyFuelItems xs from rfl] at hn
          have := pyFuelItems_pos xs
          omega
        have h2 := ihA x hfx
        cases xs with
        | nil =>
          rw [show pyFuelItems [x] = 1 + pyFuel x + pyFuelItems [] from rfl,
            show pyReprListChars [x] = pyReprChars x from rfl]
          simp only [pyFuelItems]
          omega
        | cons y ys =>
          have hfi : pyFuelItems (y :: ys) ≤ n := by
            rw [show pyFuelItems (x :: y :: ys) =
              1 + pyFuel x + pyFuelItems (y :: ys) from rfl] at hn
            have := pyFuel_pos x
            omega
          have h3 := ihB (y :: ys) hfi
          rw [show pyFuelItems (x :: y :: ys) =
              1 + pyFuel x + pyFuelItems (y :: ys) from rfl,
            show pyReprListChars (x :: y :: ys) =
              pyReprChars x ++ ',' :: ' ' :: pyReprListChars (y :: ys) from rfl]
          simp only [List.length_append, List.length_cons]
          omega
    · intro kvs hn
      cases kvs with
      | nil => simp [pyFuelDictItems]
      | cons e kvs =>
        rcases e with ⟨k, v⟩
        have hfv : pyFuel v ≤ n := by
          rw [show pyFuelDictItems ((k, v) :: kvs) =
            1 + pyFuel v + pyFuelDictItems kvs from rfl] at hn
          have := pyFuelDictItems_pos kvs
          omega
        have h2 := ihA v hfv
        cases kvs with
        | nil =>
          rw [show pyFuelDictItems [(k, v)] = 1 + pyFuel v + pyFuelDictItems [] from rfl,
            show pyReprDictChars [(k, v)] =
              reprStrChars k ++ ':' :: ' ' :: pyReprChars v from rfl]
          simp only [pyFuelDictItems, List.length_append, List.length_cons]
          omega
        | cons e2 kvs2 =>
          have hfd : pyFuelDictItems (e2 :: kvs2) ≤ n := by
            rw [show pyFuelDictItems ((k, v) :: e2 :: kvs2) =
              1 + pyFuel v + pyFuelDictItems (e2 :: kvs2) from rfl] at hn
            have := pyFuel_pos v
            omega
          have h3 := ihC (e2 :: kvs2) hfd
          rw [show pyFuelDictItems ((k, v) :: e2 :: kvs2) =
              1 + pyFuel v + pyFuelDictItems (e2 :: kvs2) from rfl,
            show pyReprDictChars ((k, v) :: e2 :: kvs2) =
              reprStrChars k ++ ':' :: ' ' :: pyReprChars v ++
                ',' :: ' ' :: pyReprDictChars (e2 :: kvs2) from rfl]
          simp only [List.length_append, List.length_cons]
          omega

/-- `eval` (with the fuel `pyEvalLiteral` supplies) inverts `repr`. -/
theorem pyEvalLiteral_repr (v : PyVal) :
    pyEvalLiteral (pyReprChars v) = some v := by
  unfold pyEvalLiteral
  have hb := (pyFuel_le_strong (pyFuel v)).1 v le_rfl
  have h := (parse_repr_strong (pyFuel v)).1 v le_rfl
    (2 * (pyReprChars v).length + 2) (by omega) []
  rw [List.append_nil] at h
  rw [h]

/-- `strip` leaves a string alone when its first and last characters are
not whitespace. -/
theorem pyStrip_eq_self (l : List Char)
    (hh : ∀ c, l.head? = some c → isPySpace c = false)
    (hl : ∀ c, l.getLast? = some c → isPySpace c = false) :
    pyStrip (String.mk l) = String.mk l := by
  unfold pyStrip
  have h1 : l.dropWhile isPySpace = l := by
    cases l with
    | nil => rfl
    | cons c t =>
      rw [List.dropWhile_cons, hh c rfl]
      simp
  rw [show (String.mk l).data = l from rfl, h1]
  have h2 : l.reverse.dropWhile isPySpace = l.reverse := by
    cases hr : l.reverse with
    | nil => rfl
    | cons c t =>
      have hlast : l.getLast? = some c := by
        rw [← List.head?_reverse, hr, List.head?_cons]
      rw [List.dropWhile_cons, hl c hlast]
      simp
  rw [h2, List.reverse_reverse]

/-- `parseList` (strip, then `eval`) recovers any value from its `repr`
line. -/
theorem parseListLine_repr (v : PyVal) :
    parseListLine (String.mk (pyReprChars v)) = some v := by
  obtain ⟨c, t, hct, hc⟩ := pyReprChars_head v
  obtain ⟨cl, hcl, hcl2⟩ := pyReprChars_getLast v
  have hstrip : pyStrip (String.mk (pyReprChars v)) = String.mk (pyReprChars v) := by
    apply pyStrip_eq_self
    · intro c' hc'
      rw [hct, List.head?_cons] at hc'
      injection hc' with hc''
      subst hc''
      rcases hc with rfl | rfl | rfl | rfl | rfl | rfl <;> rfl
    · intro c' hc'
      rw [hcl] at hc'
      injection hc' with hc''
      subst hc''
      rcases hcl2 with rfl | rfl | rfl | rfl | rfl <;> rfl
  unfold parseListLine
  rw [hstrip, if_neg (by
    rw [hct]
    intro h
    exact absurd (congrArg String.data h) (by simp))]
  exact pyEvalLiteral_repr v

/-- `parseList` applied to the `str(...)` of a list-valued field recovers
the field. -/
theorem parseListLine_listVal (v : PyVal) (h : isListVal v = true) :
    parseListLine (pyStr v) = some v := by
  cases v with
  | str s => simp [isListVal] at h
  | bool b => simp [isListVal] at h
  | list xs => exact parseListLine_repr (.list xs)
  | dict kvs => simp [isListVal] at h

/-- The positions `readBeaDataSets` reads inside one eleven-line dataset
block. -/
theorem blockLines (b0 b1 b2 b3 b4 b5 b6 b7 b8 b9 : String) (t : List String) :
    (b0 :: b1 :: b2 :: b3 :: b4 :: b5 :: b6 :: b7 :: b8 :: b9 :: t).getD 0 "" = b0 ∧
    (b0 :: b1 :: b2 :: b3 :: b4 :: b5 :: b6 :: b7 :: b8 :: b9 :: t).getD 1 "" = b1 ∧
    (b0 :: b1 :: b2 :: b3 :: b4 :: b5 :: b6 :: b7 :: b8 :: b9 :: t).getD 2 "" = b2 ∧
    (b0 :: b1 :: b2 :: b3 :: b4 :: b5 :: b6 :: b7 :: b8 :: b9 :: t).getD 3 "" = b3 ∧
    (b0 :: b1 :: b2 :: b3 :: b4 :: b5 :: b6 :: b7 :: b8 :: b9 :: t).getD 4 "" = b4 ∧
    (b0 :: b1 :: b2 :: b3 :: b4 :: b5 :: b6 :: b7 :: b8 :: b9 :: t).getD 5 "" = b5 ∧
    (b0 :: b1 :: b2 :: b3 :: b4 :: b5 :: b6 :: b7 :: b8 :: b9 :: t).getD 6 "" = b6 ∧
    (b0 :: b1 :: b2 :: b3 :: b4 :: b5 :: b6 :: b7 :: b8 :: b9 :: t).getD 7 "" = b7 ∧
    (b0 :: b1 :: b2 :: b3 :: b4 :: b5 :: b6 :: b7 :: b8 :: b9 :: t).getD 8 "" = b8 ∧
    (b0 :: b1 :: b2 :: b3 :: b4 :: b5 :: b6 :: b7 :: b8 :: b9 :: t).drop 10 = t :=
  ⟨rfl, rfl, rfl, rfl, rfl, rfl, rfl, rfl, rfl, rfl⟩

/-- A catalog is "well formed" when every dataset's name is nonempty,
name and description survive `strip` unchanged and contain no newline (so
they occupy exactly one file line each), and the eight per-dataset fields
are Python lists — which every catalog `downloadBeaDatasets` builds
satisfies by construction of `extractParamInfo`/`extractValidInputs`. -/
def wellFormedDataSet (d : BeaDataSet) : Prop :=
  d.dataSetName ≠ "" ∧ pyStrip d.dataSetName = d.dataSetName ∧
    '\n' ∉ d.dataSetName.data ∧
    pyStrip d.dataSetDescription = d.dataSetDescription ∧
    '\n' ∉ d.dataSetDescription.data ∧
    isListVal d.parameters = true ∧
    isListVal d.parametersDescriptions = true ∧
    isListVal d.parametersRequiredInRequest = true ∧
    isListVal d.parametersDefaultValues = true ∧
    isListVal d.parametersMultipleValsAcceptedInRequest = true ∧
    isListVal d.parametersAllValueRequest = true ∧
    isListVal d.parameterInputs = true ∧
    isListVal d.parameterInputsDescriptions = true

/-- The dataset-reading loop inverts the per-dataset blocks the writer
emits, for well-formed catalogs. -/
theorem parseDataSetsLines_write (cat : List BeaDataSet)
    (hclean : ∀ d ∈ cat, wellFormedDataSet d) :
    parseDataSetsLines (cat.flatMap dataSetLines) = some cat := by
  induction cat with
  | nil => simp [parseDataSetsLines]
  | cons d cat ih =>
    obtain ⟨hne, hnm, -, hds, -, hp1, hp2, hp3, hp4, hp5, hp6, hp7, hp8⟩ :=
      hclean d (by simp)
    have ih' := ih (fun d' h' => hclean d' (by simp [h']))
    rw [List.flatMap_cons,
      show dataSetLines d = [d.dataSetName, d.dataSetDescription,
        pyStr d.parameters, pyStr d.parametersDescriptions,
        pyStr d.parametersRequiredInRequest, pyStr d.parametersDefaultValues,
        pyStr d.parametersMultipleValsAcceptedInRequest,
        pyStr d.parametersAllValueRequest, pyStr d.parameterInputs,
        pyStr d.parameterInputsDescriptions, "\x00"] from rfl]
    simp only [List.cons_append, List.nil_append]
    simp only [parseDataSetsLines, hnm]
    rw [if_neg hne]
    have hb := blockLines d.dataSetDescription (pyStr d.parameters)
      (pyStr d.parametersDescriptions) (pyStr d.parametersRequiredInRequest)
      (pyStr d.parametersDefaultValues)
      (pyStr d.parametersMultipleValsAcceptedInRequest)
      (pyStr d.parametersAllValueRequest) (pyStr d.parameterInputs)
      (pyStr d.parameterInputsDescriptions) "\x00" (cat.flatMap dataSetLines)
    obtain ⟨g0, g1, g2, g3, g4, g5, g6, g7, g8, g10⟩ := hb
    rw [g0, g1, g2, g3, g4, g5, g6, g7, g8, g10]
    rw [parseListLine_listVal _ hp1, parseListLine_listVal _ hp2,
      parseListLine_listVal _ hp3, parseListLine_listVal _ hp4,
      parseListLine_listVal _ hp5, parseListLine_listVal _ hp6,
      parseListLine_listVal _ hp7, parseListLine_listVal _ hp8, ih']
    simp only [Option.some_bind, hds]

/-- Splitting never yields an empty group list. -/
theorem splitDash_ne_nil (cs : List Char) : splitDash cs ≠ [] := by
  cases cs with
  | nil => simp [splitDash]
  | cons c cs =>
    unfold splitDash
    cases h : splitDash cs with
    | nil => simp
    | cons g gs =>
      by_cases hc : c = '-' <;> simp [hc]

/-- Splitting a dash-free list yields that single group. -/
theorem splitDash_free (l : List Char) (hl : ∀ c ∈ l, c ≠ '-') :
    splitDash l = [l] := by
  induction l with
  | nil => rfl
  | cons c t ih =>
    have ht := ih (fun c' h' => hl c' (by simp [h']))
    conv_lhs => unfold splitDash
    rw [ht]
    dsimp only
    rw [if_neg (hl c (by simp))]

/-- Splitting after a leading dash-free prefix. -/
theorem splitDash_append (l : List Char) (hl : ∀ c ∈ l, c ≠ '-')
    (cs : List Char) (g : List Char) (gs : List (List Char))
    (h : splitDash cs = g :: gs) :
    splitDash (l ++ cs) = (l ++ g) :: gs := by
  induction l with
  | nil => simpa using h
  | cons c t ih =>
    have ht := ih (fun c' h' => hl c' (by simp [h']))
    show splitDash (c :: (t ++ cs)) = _
    conv_lhs => unfold splitDash
    rw [ht]
    dsimp only
    rw [if_neg (hl c (by simp))]
    rfl

/-- Splitting at a dash. -/
theorem splitDash_dash (cs : List Char) :
    splitDash ('-' :: cs) = [] :: splitDash cs := by
  conv_lhs => unfold splitDash
  cases h : splitDash cs with
  | nil => exact absurd h (splitDash_ne_nil cs)
  | cons g gs =>
    dsimp only
    rw [if_pos rfl]

/-- The character, digit value, and classification facts about the digit
characters `strftime` emits. -/
theorem digitChar10_props (n : Nat) :
    (digitChar10 n).toNat = 48 + n % 10 ∧ (digitChar10 n).isDigit = true ∧
      digitChar10 n ≠ '-' ∧ isPySpace (digitChar10 n) = false := by
  have h : n % 10 < 10 := Nat.mod_lt _ (by norm_num)
  unfold digitChar10
  set r := n % 10 with hr
  interval_cases r <;> exact ⟨rfl, rfl, by decide, rfl⟩

/-- Reading back the four-digit rendering of a year. -/
theorem digitsToNat_format4 (y : Nat) (hy : y ≤ 9999) :
    digitsToNat (format4 y) = y := by
  unfold digitsToNat format4
  simp only [List.foldl]
  rw [(digitChar10_props (y / 1000)).1, (digitChar10_props (y / 100)).1,
    (digitChar10_props (y / 10)).1, (digitChar10_props y).1]
  omega

/-- Reading back the two-digit rendering of a month or day. -/
theorem digitsToNat_format2 (m : Nat) (hm : m ≤ 99) :
    digitsToNat (format2 m) = m := by
  unfold digitsToNat format2
  simp only [List.foldl]
  rw [(digitChar10_props (m / 10)).1, (digitChar10_props m).1]
  omega

/-- Months have at most 31 days. -/
theorem daysInMonth_le (y m : Nat) : daysInMonth y m ≤ 31 := by
  unfold daysInMonth
  split
  · split <;> omega
  · split <;> omega

/-- `strptime` inverts the `strftime` date line for valid dates. -/
theorem parseDate_formatDate (d : PyDate) (hd : validDate d) :
    parseDate (formatDate d) = some d := by
  obtain ⟨h1, h2, h3, h4, h5, h6⟩ := hd
  have hday : d.day ≤ 31 := le_trans h6 (daysInMonth_le d.year d.month)
  have hy4 : ∀ c ∈ format4 d.year, c ≠ '-' := by
    intro c hc
    simp only [format4, List.mem_cons, List.not_mem_nil, or_false] at hc
    rcases hc with rfl | rfl | rfl | rfl <;> exact (digitChar10_props _).2.2.1
  have hm2 : ∀ c ∈ format2 d.month, c ≠ '-' := by
    intro c hc
    simp only [format2, List.mem_cons, List.not_mem_nil, or_false] at hc
    rcases hc with rfl | rfl <;> exact (digitChar10_props _).2.2.1
  have hd2 : ∀ c ∈ format2 d.day, c ≠ '-' := by
    intro c hc
    simp only [format2, List.mem_cons, List.not_mem_nil, or_false] at hc
    rcases hc with rfl | rfl <;> exact (digitChar10_props _).2.2.1
  have hsplit : splitDash (format4 d.year ++ '-' :: (format2 d.month ++
      '-' :: format2 d.day)) = [format4 d.year, format2 d.month, format2 d.day] := by
    have s1 : splitDash (format2 d.day) = [format2 d.day] := splitDash_free _ hd2
    have s2 : splitDash ('-' :: format2 d.day) = [] :: [format2 d.day] := by
      rw [splitDash_dash, s1]
    have s3 : splitDash (format2 d.month ++ '-' :: format2 d.day) =
        [format2 d.month, format2 d.day] := by
      have := splitDash_append (format2 d.month) hm2 ('-' :: format2 d.day) [] [format2 d.day] s2
      simpa using this
    have s4 : splitDash ('-' :: (format2 d.month ++ '-' :: format2 d.day)) =
        [] :: [format2 d.month, format2 d.day] := by
      rw [splitDash_dash, s3]
    have := splitDash_append (format4 d.year) hy4 _ [] [format2 d.month, format2 d.day] s4
    simpa using this
  unfold parseDate formatDate
  rw [show (String.mk (format4 d.year ++ '-' :: format2 d.month ++ '-' ::
      format2 d.day)).data = format4 d.year ++ '-' :: (format2 d.month ++
      '-' :: format2 d.day) from rfl]
  rw [hsplit]
  dsimp only
  rw [if_pos ?conds]
  case conds =>
    refine ⟨by simp [format4], by simp [format4], ?_, by simp [format2],
      by simp [format2], ?_, by simp [format2], by simp [format2], ?_⟩
    · intro c hc
      simp only [format4, List.mem_cons, List.not_mem_nil, or_false] at hc
      rcases hc with rfl | rfl | rfl | rfl <;> exact (digitChar10_props _).2.1
    · intro c hc
      simp only [format2, List.mem_cons, List.not_mem_nil, or_false] at hc
      rcases hc with rfl | rfl <;> exact (digitChar10_props _).2.1
    · intro c hc
      simp only [format2, List.mem_cons, List.not_mem_nil, or_false] at hc
      rcases hc with rfl | rfl <;> exact (digitChar10_props _).2.1
  rw [show digitsToNat (format4 d.year) = d.year from digitsToNat_format4 _ h2,
    show digitsToNat (format2 d.month) = d.month from
      digitsToNat_format2 _ (by omega),
    show digitsToNat (format2 d.day) = d.day from digitsToNat_format2 _ (by omega)]
  rw [if_pos ⟨h1, h2, h3, h4, h5, h6⟩]

/-- The date line is untouched by `strip`. -/
theorem pyStrip_formatDate (d : PyDate) : pyStrip (formatDate d) = formatDate d := by
  unfold formatDate
  apply pyStrip_eq_self
  · intro c hc
    rw [show (format4 d.year ++ '-' :: format2 d.month ++ '-' ::
      format2 d.day).head? = some (digitChar10 (d.year / 1000)) from rfl] at hc
    injection hc with hc'
    subst hc'
    exact (digitChar10_props _).2.2.2
  · intro c hc
    rw [show (format4 d.year ++ '-' :: format2 d.month ++ '-' :: format2 d.day) =
      (format4 d.year ++ '-' :: format2 d.month ++ '-' ::
        [digitChar10 (d.day / 10)]) ++ [digitChar10 d.day] from by
        simp [format4, format2], List.getLast?_concat] at hc
    injection hc with hc'
    subst hc'
    exact (digitChar10_props _).2.2.2

/-- A concrete well-formed one-dataset catalog used to instantiate the
round-trip theorem. -/
def c6ExampleCatalog : List BeaDataSet :=
  [{ dataSetName := "NIPA"
     dataSetDescription := "Standard NIPA tables"
     parameters := .list [.str "TableName", .str "Year"]
     parametersDescriptions := .list [.str "The table", .str "The year"]
     parametersRequiredInRequest := .list [.bool true, .bool false]
     parametersDefaultValues := .list [.str "N/a", .str "X"]
     parametersMultipleValsAcceptedInRequest := .list [.bool false, .bool true]
     parametersAllValueRequest := .list [.str "ALL", .str "N/a"]
     parameterInputs := .list [.list [.str "T10101"],
       .list [.dict [("TableName", .str "T10101"),
         ("Annual year Range", .str "1990-2020")]]]
     parameterInputsDescriptions := .list [.list [.str "Table desc"],
       .list [.str "Year ranges"]] }]

/-- C6 counterexample: the round trip does not hold for *every* catalog.  A
dataset whose name is the empty string is written as an empty name line;
on reading, the loop's stop condition (`if not dataSetName` on the stripped
line) fires immediately, so the dataset — and everything after it — is
dropped: the file deserializes to the empty catalog, not the original. -/
theorem c6_counterexample :
    readBeaDataSets
        (writeDataSetsToFile [mkBeaDataSet "" "lost"] ⟨2026, 1, 15⟩)
        ⟨2026, 1, 15⟩ [] =
      some ([], false,
        writeDataSetsToFile [mkBeaDataSet "" "lost"] ⟨2026, 1, 15⟩) ∧
    ([] : List BeaDataSet) ≠ [mkBeaDataSet "" "lost"] := by
  refine ⟨?_, by simp [mkBeaDataSet]⟩
  unfold readBeaDataSets
  rw [show pyStrip ((writeDataSetsToFile [mkBeaDataSet "" "lost"]
      ⟨2026, 1, 15⟩).getD 0 "") = "2026-01-15" from rfl]
  rw [show parseDate "2026-01-15" = some ⟨2026, 1, 15⟩ from rfl]
  dsimp only
  rw [if_neg (by decide)]
  rw [show (writeDataSetsToFile [mkBeaDataSet "" "lost"] ⟨2026, 1, 15⟩).drop 1 =
    ["", "lost", "[]", "[]", "[]", "[]", "[]", "[]", "[]", "[]", "\x00"] from rfl]
  rw [show parseDataSetsLines
      ["", "lost", "[]", "[]", "[]", "[]", "[]", "[]", "[]", "[]", "\x00"] =
      some [] from by
    simp only [parseDataSetsLines]
    rw [if_pos (show pyStrip "" = "" from rfl)]]
  rfl

/-- C6, amended: for every catalog of *well-formed* datasets — nonempty
names, strip-invariant name and description lines without embedded
newlines, and the eight per-dataset fields being Python lists (which is how
the builder produces them) — deserializing the file written at a valid date
reproduces the catalog field-for-field, with no rebuild and no network
access.  Catalogs outside this class (e.g. an empty dataset name) are
silently truncated on read, so the unconditional claim fails. -/
theorem c6_serialization_round_trip (cat : List BeaDataSet) (now : PyDate)
    (downloaded : List BeaDataSet) (hnow : validDate now)
    (hcat : ∀ d ∈ cat, wellFormedDataSet d) :
    readBeaDataSets (writeDataSetsToFile cat now) now downloaded =
      some (cat, false, writeDataSetsToFile cat now) := by
  unfold readBeaDataSets
  rw [show (writeDataSetsToFile cat now).getD 0 "" = formatDate now from rfl]
  rw [pyStrip_formatDate, parseDate_formatDate now hnow]
  dsimp only
  rw [if_neg (by omega)]
  rw [show (writeDataSetsToFile cat now).drop 1 = cat.flatMap dataSetLines from rfl]
  rw [parseDataSetsLines_write cat hcat]
  rfl

/-- The round-trip theorem instantiated at a concrete two-parameter NIPA
catalog and the date 2026-01-15. -/
theorem c6_witness :
    validDate ⟨2026, 1, 15⟩ ∧
    readBeaDataSets (writeDataSetsToFile c6ExampleCatalog ⟨2026, 1, 15⟩)
        ⟨2026, 1, 15⟩ [] =
      some (c6ExampleCatalog, false,
        writeDataSetsToFile c6ExampleCatalog ⟨2026, 1, 15⟩) :=
  ⟨by decide,
    c6_serialization_round_trip c6ExampleCatalog ⟨2026, 1, 15⟩ [] (by decide)
      (by
        intro d hd
        simp only [c6ExampleCatalog, List.mem_singleton] at hd
        subst hd
        exact ⟨by decide, by decide, by decide, by decide, by decide,
          rfl, rfl, rfl, rfl, rfl, rfl, rfl, rfl⟩)⟩
